import Mathlib

/-!
# i.MX DPU fetch unit (`drivers/gpu/imx/dpu/dpu-fetchunit.c`)

A shallow embedding of the fetch-unit helpers and the properties of their
burst-size, stride and base-address arithmetic.

Conventions of the embedding.

* `unsigned int` and `u32` values are natural numbers below `2 ^ 32`; every
  operation that can leave that range is followed by an explicit `% 2 ^ 32`.
* `int bpp` is an integer; `bpp / 8` is C division (`Int.tdiv`, truncating) and
  `bpp >> 3` is the arithmetic shift (`>>>` on `Int`, flooring).
* `dma_addr_t` is `u32` or `u64` depending on the kernel configuration; the
  width is the parameter `dma_addr_width` and addresses are natural numbers
  below `2 ^ bits`.
* Operations the C standard leaves undefined (a shift by `-1`, `% 0`) are
  results `Except.error`.
* A `struct dpu_fetchunit *` that may be `NULL` is an `Option dpu_fetchunit`;
  helpers that dereference it unchecked take a `dpu_fetchunit`.
* `mutex_lock`/`mutex_unlock` and `dev_dbg` have no effect on a sequential
  run and are not represented.
-/

namespace DpuFetchunit

/-! ## C integers -/

/-- Conversion of an integer to `unsigned int` / `u32`: reduction modulo `2 ^ 32`. -/
def to_u32 (z : Int) : Nat := (z % 4294967296).toNat

/-- The two widths `dma_addr_t` can have (`CONFIG_ARCH_DMA_ADDR_T_64BIT`). -/
inductive dma_addr_width where
  | u32
  | u64
  deriving DecidableEq

/-- Number of bits of a `dma_addr_t`. -/
def dma_addr_width.bits : dma_addr_width → Nat
  | .u32 => 32
  | .u64 => 64

/-- The operations with no defined result in C that the helpers can reach. -/
inductive Undefined where
  | shift_by_negative
  | modulo_by_zero
  deriving DecidableEq

/-- The expression `val & ~m` for a `u32 val`: bits of `m` cleared in `val`. -/
def and_not32 (val m : Nat) : Nat := val &&& (4294967295 ^^^ (m % 4294967296))

/-- Index of the least significant set bit of `x`, searching at most `fuel` bits. -/
def lowest_set_bit : Nat → Nat → Nat
  | 0, _ => 0
  | fuel + 1, x => if x % 2 = 1 then 0 else lowest_set_bit fuel (x / 2) + 1

/-- Modelled from the spec: `ffs` of the kernel's bitops is not in this file; the
spec's "position of the lowest set bit". The kernel function takes an `int`, so the
argument is first reduced to its low 32 bits; the result is one plus the index of
the least significant set bit, and `0` when no bit is set. -/
def ffs (x : Nat) : Nat :=
  if x % 4294967296 = 0 then 0 else lowest_set_bit 32 (x % 4294967296) + 1

/-- Modelled from the spec: the kernel macro `round_up(x, y)` is not in this file;
the spec's "rounded up to a multiple of". The macro is
`((((x) - 1) | ((typeof(x))((y) - 1))) + 1)`, evaluated in the unsigned type of
`x`, here of `w` bits. -/
def round_up (w x y : Nat) : Nat :=
  ((((x + 2 ^ w - 1) % 2 ^ w) ||| ((y + 2 ^ w - 1) % 2 ^ w)) + 1) % 2 ^ w

/-! ## Register map -/

def BASEADDRESS (n : Nat) : Nat := 0x10 + n * 0x28
def SOURCEBUFFERATTRIBUTES (n : Nat) : Nat := 0x14 + n * 0x28
def SOURCEBUFFERDIMENSION (n : Nat) : Nat := 0x18 + n * 0x28
def COLORCOMPONENTBITS (n : Nat) : Nat := 0x1C + n * 0x28
def COLORCOMPONENTSHIFT (n : Nat) : Nat := 0x20 + n * 0x28
def LAYEROFFSET (n : Nat) : Nat := 0x24 + n * 0x28
def CLIPWINDOWOFFSET (n : Nat) : Nat := 0x28 + n * 0x28
def CLIPWINDOWDIMENSIONS (n : Nat) : Nat := 0x2C + n * 0x28
def CONSTANTCOLOR (n : Nat) : Nat := 0x30 + n * 0x28
def LAYERPROPERTY (n : Nat) : Nat := 0x34 + n * 0x28

/-- The constants and macros that the file takes from `dpu-prv.h` and
`video/dpu.h`. Their values are not fixed by this file, so they are a parameter
of every definition that uses one of them. -/
structure dpu_hdr where
  STATICCONTROL : Nat
  SHDEN : Nat
  BASEADDRESSAUTOUPDATE_MASK : Nat
  BASEADDRESSAUTOUPDATE : Nat → Nat
  SHDLDREQSTICKY_MASK : Nat
  SHDLDREQSTICKY : Nat → Nat
  BURSTBUFFERMANAGEMENT : Nat
  SETBURSTLENGTH_MASK : Nat
  SETBURSTLENGTH : Nat → Nat
  BITSPERPIXEL : Int → Nat
  STRIDE : Nat → Nat
  SOURCEBUFFERENABLE : Nat
  DPU_PLANE_SRC_TO_DISP_STREAM0 : Nat
  DPU_PLANE_SRC_TO_DISP_STREAM1 : Nat
  DPU_PLANE_SRC_DISABLED : Nat
  FU_T_FD : Nat
  FU_T_FE : Nat
  FU_T_FL : Nat
  FU_T_FW : Nat

/-- One concrete header, with the values the vendor tree gives these names; it
serves to run the definitions on concrete inputs. -/
def imx_hdr : dpu_hdr where
  STATICCONTROL := 0x8
  SHDEN := 1
  BASEADDRESSAUTOUPDATE_MASK := 0xFF0000
  BASEADDRESSAUTOUPDATE := fun lm => (lm &&& 0xFF) <<< 16
  SHDLDREQSTICKY_MASK := 0xFF000000
  SHDLDREQSTICKY := fun lm => (lm &&& 0xFF) <<< 24
  BURSTBUFFERMANAGEMENT := 0xC
  SETBURSTLENGTH_MASK := 0x1F00
  SETBURSTLENGTH := fun n => (n &&& 0x1F) <<< 8
  BITSPERPIXEL := fun bpp => (to_u32 bpp &&& 0x3F) <<< 16
  STRIDE := fun n => ((n + 4294967295) % 4294967296) &&& 0xFFFF
  SOURCEBUFFERENABLE := 0x80000000
  DPU_PLANE_SRC_TO_DISP_STREAM0 := 1
  DPU_PLANE_SRC_TO_DISP_STREAM1 := 2
  DPU_PLANE_SRC_DISABLED := 0
  FU_T_FD := 1
  FU_T_FE := 2
  FU_T_FL := 3
  FU_T_FW := 4

/-! ## The fetch unit -/

/-- The fields of `struct dpu_fetchunit` that the file reads or writes. `base` is
the register window, a map from byte offset to the 32-bit value stored there. -/
structure dpu_fetchunit where
  base : Nat → Nat
  id : Nat
  sub_id : Nat
  type : Nat
  stream_id : Nat
  pin_off : Bool
  dprc : Option Nat

/-- Modelled from the spec: `dpu_fu_read` of `dpu-prv.h` is not in this file; the
spec's register I/O primitive `read(offset) -> u32`. The result is a `u32`. -/
def dpu_fu_read (fu : dpu_fetchunit) (offset : Nat) : Nat := fu.base offset % 4294967296

/-- Modelled from the spec: `dpu_fu_write` of `dpu-prv.h` is not in this file; the
spec's register I/O primitive `write(value, offset)`. The value parameter is a
`u32`, so a wider argument is truncated. -/
def dpu_fu_write (fu : dpu_fetchunit) (value offset : Nat) : dpu_fetchunit :=
  { fu with base := Function.update fu.base offset (value % 4294967296) }

/-! ## Geometry: burst size, burst length, base address, stride -/

/-- The statement `baddr += (x_offset % mt_w) * (bpp / 8)` (lines 91, 127, 185):
the product is an `unsigned int`, the sum a `dma_addr_t`. -/
def baddr_add_x_offset (c : dma_addr_width) (x_offset mt_w : Nat) (bpp : Int)
    (baddr : Nat) : Nat :=
  (baddr + to_u32 (((x_offset % mt_w : Nat) : Int) * bpp.tdiv 8)) % 2 ^ c.bits

/-- The three statements `burst_size = 1 << (ffs(baddr) - 1);`
`burst_size = round_up(burst_size, 8);` `burst_size = min(burst_size, 128U);`
(lines 97-99, 133-135, 191-193). When `ffs` returns `0` the shift count is `-1`.
For `ffs` returning `32` the shift `1 << 31` has its GNU C value, bit 31, which the
assignment to the `unsigned int` keeps as `0x80000000`. -/
def burst_size_of (baddr : Nat) : Except Undefined Nat :=
  if ffs baddr = 0 then .error .shift_by_negative
  else
    let burst_size := (1 <<< (ffs baddr - 1)) % 4294967296
    let burst_size := round_up 32 burst_size 8
    let burst_size := min burst_size 128
    .ok burst_size

/-- The statement `stride = round_up(stride + round_up(baddr % 8, 8), burst_size)`
(lines 142, 201): the inner `round_up` and the sum have the type of `baddr`, the
result is stored in an `unsigned int`. -/
def stride_fixup (c : dma_addr_width) (stride baddr burst_size : Nat) : Nat :=
  round_up c.bits ((stride + round_up c.bits (baddr % 8) 8) % 2 ^ c.bits) burst_size
    % 4294967296

/-- Lines 88-103 of `fetchunit_set_burstlength`: the local `burst_length`. -/
def burst_length_of (c : dma_addr_width) (x_offset mt_w : Nat) (bpp : Int)
    (baddr : Nat) (use_prefetch : Bool) : Except Undefined Nat :=
  let nonzero_mod := decide (mt_w ≠ 0)
  if use_prefetch then
    let baddr := if nonzero_mod then baddr_add_x_offset c x_offset mt_w bpp baddr else baddr
    match burst_size_of baddr with
    | .error e => .error e
    | .ok burst_size => .ok (burst_size / 8)
  else
    .ok 16

/-- The function `fetchunit_set_burstlength` (lines 79-114). -/
def fetchunit_set_burstlength (h : dpu_hdr) (c : dma_addr_width) (fu : dpu_fetchunit)
    (x_offset mt_w : Nat) (bpp : Int) (baddr : Nat) (use_prefetch : Bool) :
    Except Undefined dpu_fetchunit :=
  match burst_length_of c x_offset mt_w bpp baddr use_prefetch with
  | .error e => .error e
  | .ok burst_length =>
    let val := dpu_fu_read fu h.BURSTBUFFERMANAGEMENT
    let val := and_not32 val h.SETBURSTLENGTH_MASK
    let val := (val ||| h.SETBURSTLENGTH burst_length) % 4294967296
    .ok (dpu_fu_write fu val h.BURSTBUFFERMANAGEMENT)

/-- Lines 125-146 of `fetchunit_set_baseaddress`: the final value of `baddr`. -/
def baseaddress_of (c : dma_addr_width) (width x_offset y_offset mt_w mt_h : Nat)
    (bpp : Int) (baddr : Nat) : Except Undefined Nat :=
  let nonzero_mod := decide (mt_w ≠ 0)
  if nonzero_mod then
    let baddr := baddr_add_x_offset c x_offset mt_w bpp baddr
    match burst_size_of baddr with
    | .error e => .error e
    | .ok burst_size =>
      let stride := to_u32 ((width : Int) * (bpp >>> (3 : Nat)))
      let stride := stride_fixup c stride baddr burst_size
      if mt_h = 0 then .error .modulo_by_zero
      else .ok ((baddr + ((y_offset % mt_h) * stride) % 4294967296) % 2 ^ c.bits)
  else
    .ok baddr

/-- The function `fetchunit_set_baseaddress` (lines 117-151). -/
def fetchunit_set_baseaddress (c : dma_addr_width) (fu : dpu_fetchunit)
    (width x_offset y_offset mt_w mt_h : Nat) (bpp : Int) (baddr : Nat) :
    Except Undefined dpu_fetchunit :=
  match baseaddress_of c width x_offset y_offset mt_w mt_h bpp baddr with
  | .error e => .error e
  | .ok baddr => .ok (dpu_fu_write fu baddr (BASEADDRESS fu.sub_id))

/-- The function `fetchunit_set_src_bpp` (lines 154-164). -/
def fetchunit_set_src_bpp (h : dpu_hdr) (fu : dpu_fetchunit) (bpp : Int) : dpu_fetchunit :=
  let val := dpu_fu_read fu (SOURCEBUFFERATTRIBUTES fu.sub_id)
  let val := and_not32 val 0x3f0000
  let val := (val ||| h.BITSPERPIXEL bpp) % 4294967296
  dpu_fu_write fu val (SOURCEBUFFERATTRIBUTES fu.sub_id)

/-- Lines 182-205 of `fetchunit_set_src_stride`: the final value of `stride`. -/
def src_stride_of (c : dma_addr_width) (width x_offset mt_w : Nat) (bpp : Int)
    (stride baddr : Nat) (use_prefetch : Bool) : Except Undefined Nat :=
  let nonzero_mod := decide (mt_w ≠ 0)
  if use_prefetch then
    let baddr := if nonzero_mod then baddr_add_x_offset c x_offset mt_w bpp baddr else baddr
    match burst_size_of baddr with
    | .error e => .error e
    | .ok burst_size =>
      let stride := to_u32 ((width : Int) * (bpp >>> (3 : Nat)))
      if nonzero_mod then .ok (stride_fixup c stride baddr burst_size)
      else .ok (round_up 32 stride burst_size)
  else
    .ok stride

/-- The function `fetchunit_set_src_stride` (lines 173-213). -/
def fetchunit_set_src_stride (h : dpu_hdr) (c : dma_addr_width) (fu : dpu_fetchunit)
    (width x_offset mt_w : Nat) (bpp : Int) (stride baddr : Nat) (use_prefetch : Bool) :
    Except Undefined dpu_fetchunit :=
  match src_stride_of c width x_offset mt_w bpp stride baddr use_prefetch with
  | .error e => .error e
  | .ok stride =>
    let val := dpu_fu_read fu (SOURCEBUFFERATTRIBUTES fu.sub_id)
    let val := and_not32 val 0xffff
    let val := (val ||| h.STRIDE stride) % 4294967296
    .ok (dpu_fu_write fu val (SOURCEBUFFERATTRIBUTES fu.sub_id))

/-! ## Control register and source-buffer enable -/

/-- The function `fetchunit_shden` (lines 38-50). -/
def fetchunit_shden (h : dpu_hdr) (fu : dpu_fetchunit) (enable : Bool) : dpu_fetchunit :=
  let val := dpu_fu_read fu h.STATICCONTROL
  let val := if enable then (val ||| h.SHDEN) % 4294967296 else and_not32 val h.SHDEN
  dpu_fu_write fu val h.STATICCONTROL

/-- The function `fetchunit_baddr_autoupdate` (lines 53-63). -/
def fetchunit_baddr_autoupdate (h : dpu_hdr) (fu : dpu_fetchunit) (layer_mask : Nat) :
    dpu_fetchunit :=
  let val := dpu_fu_read fu h.STATICCONTROL
  let val := and_not32 val h.BASEADDRESSAUTOUPDATE_MASK
  let val := (val ||| h.BASEADDRESSAUTOUPDATE layer_mask) % 4294967296
  dpu_fu_write fu val h.STATICCONTROL

/-- The function `fetchunit_shdldreq_sticky` (lines 66-76). -/
def fetchunit_shdldreq_sticky (h : dpu_hdr) (fu : dpu_fetchunit) (layer_mask : Nat) :
    dpu_fetchunit :=
  let val := dpu_fu_read fu h.STATICCONTROL
  let val := and_not32 val h.SHDLDREQSTICKY_MASK
  let val := (val ||| h.SHDLDREQSTICKY layer_mask) % 4294967296
  dpu_fu_write fu val h.STATICCONTROL

/-- The function `fetchunit_enable_src_buf` (lines 216-225). -/
def fetchunit_enable_src_buf (h : dpu_hdr) (fu : dpu_fetchunit) : dpu_fetchunit :=
  let val := dpu_fu_read fu (LAYERPROPERTY fu.sub_id)
  let val := (val ||| h.SOURCEBUFFERENABLE) % 4294967296
  dpu_fu_write fu val (LAYERPROPERTY fu.sub_id)

/-- The function `fetchunit_disable_src_buf` (lines 228-237). -/
def fetchunit_disable_src_buf (h : dpu_hdr) (fu : dpu_fetchunit) : dpu_fetchunit :=
  let val := dpu_fu_read fu (LAYERPROPERTY fu.sub_id)
  let val := and_not32 val h.SOURCEBUFFERENABLE
  dpu_fu_write fu val (LAYERPROPERTY fu.sub_id)

/-- The function `fetchunit_is_enabled` (lines 240-249). -/
def fetchunit_is_enabled (h : dpu_hdr) (fu : dpu_fetchunit) : Bool :=
  let val := dpu_fu_read fu (LAYERPROPERTY fu.sub_id)
  decide (val &&& h.SOURCEBUFFERENABLE ≠ 0)

/-! ## Soft state

The second component of a result tells whether `WARN_ON` fired. -/

/-- The function `fetchunit_get_dprc` (lines 29-35). -/
def fetchunit_get_dprc (fu : Option dpu_fetchunit) (data : Option Nat) :
    Option dpu_fetchunit × Bool :=
  match fu with
  | none => (none, true)
  | some fu => (some { fu with dprc := data }, false)

/-- The function `fetchunit_get_stream_id` (lines 252-258). -/
def fetchunit_get_stream_id (h : dpu_hdr) (fu : Option dpu_fetchunit) : Nat × Bool :=
  match fu with
  | none => (h.DPU_PLANE_SRC_DISABLED, true)
  | some fu => (fu.stream_id, false)

/-- The function `fetchunit_set_stream_id` (lines 261-275). -/
def fetchunit_set_stream_id (h : dpu_hdr) (fu : Option dpu_fetchunit) (id : Nat) :
    Option dpu_fetchunit × Bool :=
  match fu with
  | none => (none, true)
  | some fu =>
    if id = h.DPU_PLANE_SRC_TO_DISP_STREAM0 ∨ id = h.DPU_PLANE_SRC_TO_DISP_STREAM1
        ∨ id = h.DPU_PLANE_SRC_DISABLED then
      (some { fu with stream_id := id }, false)
    else
      (some fu, true)

/-- The function `fetchunit_pin_off` (lines 278-284). -/
def fetchunit_pin_off (fu : Option dpu_fetchunit) : Option dpu_fetchunit × Bool :=
  match fu with
  | none => (none, true)
  | some fu => (some { fu with pin_off := true }, false)

/-- The function `fetchunit_unpin_off` (lines 287-293). -/
def fetchunit_unpin_off (fu : Option dpu_fetchunit) : Option dpu_fetchunit × Bool :=
  match fu with
  | none => (none, true)
  | some fu => (some { fu with pin_off := false }, false)

/-- The function `fetchunit_is_pinned_off` (lines 296-302). -/
def fetchunit_is_pinned_off (fu : Option dpu_fetchunit) : Bool × Bool :=
  match fu with
  | none => (false, true)
  | some fu => (fu.pin_off, false)

/-- The function `fetchunit_is_fetchdecode` (lines 305-311). -/
def fetchunit_is_fetchdecode (h : dpu_hdr) (fu : Option dpu_fetchunit) : Bool × Bool :=
  match fu with
  | none => (false, true)
  | some fu => (decide (fu.type = h.FU_T_FD), false)

/-- The function `fetchunit_is_fetcheco` (lines 314-320). -/
def fetchunit_is_fetcheco (h : dpu_hdr) (fu : Option dpu_fetchunit) : Bool × Bool :=
  match fu with
  | none => (false, true)
  | some fu => (decide (fu.type = h.FU_T_FE), false)

/-- The function `fetchunit_is_fetchlayer` (lines 323-329). -/
def fetchunit_is_fetchlayer (h : dpu_hdr) (fu : Option dpu_fetchunit) : Bool × Bool :=
  match fu with
  | none => (false, true)
  | some fu => (decide (fu.type = h.FU_T_FL), false)

/-- The function `fetchunit_is_fetchwarp` (lines 332-338). -/
def fetchunit_is_fetchwarp (h : dpu_hdr) (fu : Option dpu_fetchunit) : Bool × Bool :=
  match fu with
  | none => (false, true)
  | some fu => (decide (fu.type = h.FU_T_FW), false)

/-- A fetch unit with every register and field zero, to run the definitions on. -/
def fu_zero : dpu_fetchunit where
  base := fun _ => 0
  id := 0
  sub_id := 0
  type := 0
  stream_id := 0
  pin_off := false
  dprc := none

/-- The x-offset-corrected address that the burst size is computed from in
`fetchunit_set_burstlength` and `fetchunit_set_src_stride` (lines 90-91, 184-185). -/
def corrected_baddr (c : dma_addr_width) (x_offset mt_w : Nat) (bpp : Int) (baddr : Nat) : Nat :=
  if mt_w ≠ 0 then baddr_add_x_offset c x_offset mt_w bpp baddr else baddr

/-- The least multiple of `y` that is not below `x`, in exact arithmetic: what
"round `x` up to a multiple of `y`" means when nothing overflows. -/
def round_up_exact (x y : Nat) : Nat := (x + y - 1) / y * y

/-- The ten per-sub-unit registers that lines 18-27 define. -/
inductive fu_reg where
  | baseaddress
  | sourcebufferattributes
  | sourcebufferdimension
  | colorcomponentbits
  | colorcomponentshift
  | layeroffset
  | clipwindowoffset
  | clipwindowdimensions
  | constantcolor
  | layerproperty
  deriving DecidableEq

/-- The byte offset of register `r` of sub-unit `n`: the macro of that name. -/
def fu_reg.offset : fu_reg → Nat → Nat
  | .baseaddress, n => DpuFetchunit.BASEADDRESS n
  | .sourcebufferattributes, n => DpuFetchunit.SOURCEBUFFERATTRIBUTES n
  | .sourcebufferdimension, n => DpuFetchunit.SOURCEBUFFERDIMENSION n
  | .colorcomponentbits, n => DpuFetchunit.COLORCOMPONENTBITS n
  | .colorcomponentshift, n => DpuFetchunit.COLORCOMPONENTSHIFT n
  | .layeroffset, n => DpuFetchunit.LAYEROFFSET n
  | .clipwindowoffset, n => DpuFetchunit.CLIPWINDOWOFFSET n
  | .clipwindowdimensions, n => DpuFetchunit.CLIPWINDOWDIMENSIONS n
  | .constantcolor, n => DpuFetchunit.CONSTANTCOLOR n
  | .layerproperty, n => DpuFetchunit.LAYERPROPERTY n

/-- Lines 127-142 of `fetchunit_set_baseaddress`, inside `if (nonzero_mod)`: the
local `stride` that the y-offset statement of line 145 multiplies by. -/
def baseaddress_stride_of (c : dma_addr_width) (width x_offset mt_w : Nat) (bpp : Int)
    (baddr : Nat) : Except Undefined Nat :=
  let baddr := baddr_add_x_offset c x_offset mt_w bpp baddr
  match burst_size_of baddr with
  | .error e => .error e
  | .ok burst_size =>
    let stride := to_u32 ((width : Int) * (bpp >>> (3 : Nat)))
    .ok (stride_fixup c stride baddr burst_size)

/-! ## Lemmas on the integer helpers -/

theorem lowest_set_bit_lt (n x : Nat) (hx : x ≠ 0) (hlt : x < 2 ^ n) :
    lowest_set_bit n x < n := by
  induction n generalizing x with
  | zero => simp at hlt; exact absurd hlt hx
  | succ n ih =>
    unfold lowest_set_bit
    split
    · omega
    · have h2 : x / 2 ≠ 0 := by omega
      have h3 : x / 2 < 2 ^ n := by
        rw [pow_succ] at hlt; omega
      have := ih (x / 2) h2 h3
      omega

theorem lowest_set_bit_dvd (n x : Nat) (hx : x ≠ 0) (hlt : x < 2 ^ n) :
    2 ^ lowest_set_bit n x ∣ x ∧ ¬ 2 ^ (lowest_set_bit n x + 1) ∣ x := by
  induction n generalizing x with
  | zero => simp at hlt; exact absurd hlt hx
  | succ n ih =>
    unfold lowest_set_bit
    split
    · refine ⟨by simp, ?_⟩
      simp only [zero_add, pow_one]
      omega
    · have h2 : x / 2 ≠ 0 := by omega
      have h3 : x / 2 < 2 ^ n := by
        rw [pow_succ] at hlt; omega
      obtain ⟨d1, d2⟩ := ih (x / 2) h2 h3
      have hx2 : x = 2 * (x / 2) := by omega
      constructor
      · rw [pow_succ, mul_comm]
        conv_rhs => rw [hx2]
        exact Nat.mul_dvd_mul_left 2 d1
      · intro hd
        apply d2
        rw [pow_succ _ (lowest_set_bit n (x / 2) + 1), mul_comm] at hd
        conv_rhs at hd => rw [hx2]
        exact (Nat.mul_dvd_mul_iff_left (by norm_num)).mp hd

theorem round_up_two_pow_8 (k : Nat) (hk : k < 32) :
    min (round_up 32 ((1 <<< k) % 4294967296) 8) 128 = min (max (2 ^ k) 8) 128 := by
  interval_cases k <;> rfl

/-- Divisibility by a power of two up to `2 ^ 32` only looks at the low 32 bits. -/
theorem two_pow_dvd_low32 (k x : Nat) (hk : k ≤ 32) :
    2 ^ k ∣ x % 4294967296 ↔ 2 ^ k ∣ x := by
  have h : (2 : Nat) ^ k ∣ 4294967296 := by
    have : (4294967296 : Nat) = 2 ^ 32 := by norm_num
    rw [this]
    exact Nat.pow_dvd_pow 2 hk
  exact Nat.dvd_mod_iff h

/-- The burst size in closed form: defined exactly on addresses whose low 32 bits
are not all zero, where it is `2 ^ k` clamped to `[8, 128]`, `k` the index of the
least significant set bit. -/
theorem burst_size_of_eq (baddr : Nat) (h : baddr % 4294967296 ≠ 0) :
    ∃ k, k < 32 ∧ 2 ^ k ∣ baddr ∧ ¬ 2 ^ (k + 1) ∣ baddr ∧
      burst_size_of baddr = .ok (min (max (2 ^ k) 8) 128) := by
  have hlt : baddr % 4294967296 < 2 ^ 32 := Nat.mod_lt _ (by norm_num)
  have hk := lowest_set_bit_lt 32 _ h hlt
  obtain ⟨d1, d2⟩ := lowest_set_bit_dvd 32 _ h hlt
  refine ⟨lowest_set_bit 32 (baddr % 4294967296), hk, ?_, ?_, ?_⟩
  · exact (two_pow_dvd_low32 _ _ (by omega)).mp d1
  · intro hd
    exact d2 ((two_pow_dvd_low32 _ _ (by omega)).mpr hd)
  · unfold burst_size_of ffs
    simp only [h, if_false, Nat.add_sub_cancel]
    simp only [Nat.succ_ne_zero, if_false]
    rw [round_up_two_pow_8 _ hk]

theorem burst_size_of_low32_zero (baddr : Nat) (h : baddr % 4294967296 = 0) :
    burst_size_of baddr = .error .shift_by_negative := by
  unfold burst_size_of ffs
  simp [h]

theorem clamp_two_pow_cases (k : Nat) :
    min (max (2 ^ k) 8) 128 = 8 ∨ min (max (2 ^ k) 8) 128 = 16 ∨ min (max (2 ^ k) 8) 128 = 32
      ∨ min (max (2 ^ k) 8) 128 = 64 ∨ min (max (2 ^ k) 8) 128 = 128 := by
  by_cases hk : k < 8
  · interval_cases k <;> simp
  · have : 2 ^ 8 ≤ 2 ^ k := Nat.pow_le_pow_right (by norm_num) (by omega)
    right; right; right; right
    norm_num at this
    omega

theorem testBit_u32_ones (i : Nat) : (4294967295 : Nat).testBit i = decide (i < 32) := by
  have : (4294967295 : Nat) = 2 ^ 32 - 1 := by norm_num
  rw [this, Nat.testBit_two_pow_sub_one]

theorem testBit_mod_u32 (x i : Nat) :
    (x % 4294967296).testBit i = (decide (i < 32) && x.testBit i) := by
  have : (4294967296 : Nat) = 2 ^ 32 := by norm_num
  rw [this, Nat.testBit_mod_two_pow]

theorem testBit_and_not32 (v m i : Nat) :
    (and_not32 v m).testBit i = (v.testBit i && (decide (i < 32) && !m.testBit i)) := by
  unfold and_not32
  rw [Nat.testBit_and, Nat.testBit_xor, testBit_u32_ones, testBit_mod_u32]
  by_cases h : i < 32 <;> simp [h]

/-- A mask below `2 ^ 32` has no bit at index 32 or above. -/
theorem testBit_of_lt_u32 (m i : Nat) (hm : m < 4294967296) (hi : m.testBit i = true) :
    i < 32 := by
  by_contra hge
  have h1 : m < 2 ^ i := by
    have : 2 ^ 32 ≤ 2 ^ i := Nat.pow_le_pow_right (by norm_num) (by omega)
    norm_num at this
    omega
  rw [Nat.testBit_lt_two_pow h1] at hi
  cases hi

/-- Read-modify-write of a field: after `val &= ~m; val |= s` with `s` inside the
mask `m`, the bits under `m` are `s`. -/
theorem rmw_field (v s m : Nat) (hm : m < 4294967296) (hs : s &&& m = s) :
    ((and_not32 v m ||| s) % 4294967296) &&& m = s := by
  apply Nat.eq_of_testBit_eq
  intro i
  have hsi : s.testBit i = (s.testBit i && m.testBit i) := by
    conv_lhs => rw [← hs]
    rw [Nat.testBit_and]
  rw [Nat.testBit_and, testBit_mod_u32, Nat.testBit_or, testBit_and_not32]
  by_cases hmi : m.testBit i = true
  · have := testBit_of_lt_u32 m i hm hmi
    simp [hmi, this]
  · simp only [Bool.not_eq_true] at hmi
    rw [hsi, hmi]
    simp

/-- Read-modify-write of a field: the bits outside the mask keep their value. -/
theorem rmw_frame (v s m : Nat) (hs : s &&& m = s) :
    and_not32 ((and_not32 v m ||| s) % 4294967296) m = and_not32 v m := by
  apply Nat.eq_of_testBit_eq
  intro i
  have hsi : s.testBit i = (s.testBit i && m.testBit i) := by
    conv_lhs => rw [← hs]
    rw [Nat.testBit_and]
  rw [testBit_and_not32, testBit_mod_u32, Nat.testBit_or, testBit_and_not32]
  by_cases hmi : m.testBit i = true
  · simp [hmi]
  · simp only [Bool.not_eq_true] at hmi
    rw [hsi, hmi]
    by_cases h : i < 32 <;> simp [h]

/-! ## Lemmas on the geometry -/

theorem to_u32_natCast (n : Nat) (hn : n < 4294967296) : to_u32 (n : Int) = n := by
  unfold to_u32
  omega

/-- Without overflow and with a non-negative `bpp` the x-offset statement is the
exact sum. -/
theorem baddr_add_x_offset_exact (c : dma_addr_width) (x_offset mt_w : Nat) (bpp : Int)
    (baddr : Nat) (hbpp : 0 ≤ bpp)
    (hsum : baddr + (x_offset % mt_w) * (bpp.toNat / 8) < 2 ^ c.bits)
    (hprod : (x_offset % mt_w) * (bpp.toNat / 8) < 4294967296) :
    baddr_add_x_offset c x_offset mt_w bpp baddr
      = baddr + (x_offset % mt_w) * (bpp.toNat / 8) := by
  unfold baddr_add_x_offset
  obtain ⟨n, rfl⟩ := Int.eq_ofNat_of_zero_le hbpp
  have h8 : (n : Int).tdiv 8 = ((n / 8 : Nat) : Int) := by
    rw [Int.tdiv_eq_ediv hbpp (by norm_num)]
    norm_cast
  simp only [Int.toNat_ofNat] at hsum hprod
  rw [h8, ← Nat.cast_mul, to_u32_natCast _ hprod, Int.toNat_ofNat, Nat.mod_eq_of_lt hsum]

theorem burst_length_of_prefetch (c : dma_addr_width) (x_offset mt_w : Nat) (bpp : Int)
    (baddr : Nat) :
    burst_length_of c x_offset mt_w bpp baddr true =
      match burst_size_of (corrected_baddr c x_offset mt_w bpp baddr) with
      | .error e => .error e
      | .ok burst_size => .ok (burst_size / 8) := by
  unfold burst_length_of corrected_baddr
  by_cases h : mt_w = 0 <;> simp [h]

/-! ## Burst length (C2, C3) -/

/-- C2: with `use_prefetch = false`, `fetchunit_set_burstlength` returns normally and
programs `SETBURSTLENGTH(16)` into BURSTBUFFERMANAGEMENT, whatever the address
width, `x_offset`, `mt_w`, `bpp` and `baddr`: two calls from the same state give the
same state, registers at other offsets are untouched, and when `SETBURSTLENGTH(16)`
lies inside the 32-bit mask `SETBURSTLENGTH_MASK` the bits under the mask read
back as `SETBURSTLENGTH(16)` while the bits outside it keep their value. -/
theorem set_burstlength_no_prefetch (h : dpu_hdr) (c c' : dma_addr_width)
    (fu : dpu_fetchunit) (x_offset mt_w : Nat) (bpp : Int) (baddr : Nat)
    (x_offset' mt_w' : Nat) (bpp' : Int) (baddr' : Nat) :
    ∃ fu', fetchunit_set_burstlength h c fu x_offset mt_w bpp baddr false = .ok fu' ∧
      fetchunit_set_burstlength h c' fu x_offset' mt_w' bpp' baddr' false = .ok fu' ∧
      fu' = dpu_fu_write fu
        ((and_not32 (dpu_fu_read fu h.BURSTBUFFERMANAGEMENT) h.SETBURSTLENGTH_MASK
          ||| h.SETBURSTLENGTH 16) % 4294967296) h.BURSTBUFFERMANAGEMENT ∧
      (∀ offset, offset ≠ h.BURSTBUFFERMANAGEMENT → fu'.base offset = fu.base offset) ∧
      (h.SETBURSTLENGTH_MASK < 4294967296 →
        h.SETBURSTLENGTH 16 &&& h.SETBURSTLENGTH_MASK = h.SETBURSTLENGTH 16 →
        dpu_fu_read fu' h.BURSTBUFFERMANAGEMENT &&& h.SETBURSTLENGTH_MASK
            = h.SETBURSTLENGTH 16 ∧
          and_not32 (dpu_fu_read fu' h.BURSTBUFFERMANAGEMENT) h.SETBURSTLENGTH_MASK
            = and_not32 (dpu_fu_read fu h.BURSTBUFFERMANAGEMENT) h.SETBURSTLENGTH_MASK) := by
  refine ⟨_, rfl, rfl, rfl, ?_, ?_⟩
  · intro offset hne
    simp [dpu_fu_write, Function.update_noteq hne]
  · intro hm hs
    have hrd : dpu_fu_read (dpu_fu_write fu
        ((and_not32 (dpu_fu_read fu h.BURSTBUFFERMANAGEMENT) h.SETBURSTLENGTH_MASK
          ||| h.SETBURSTLENGTH 16) % 4294967296) h.BURSTBUFFERMANAGEMENT)
        h.BURSTBUFFERMANAGEMENT
        = (and_not32 (dpu_fu_read fu h.BURSTBUFFERMANAGEMENT) h.SETBURSTLENGTH_MASK
          ||| h.SETBURSTLENGTH 16) % 4294967296 := by
      simp [dpu_fu_read, dpu_fu_write]
    rw [hrd]
    exact ⟨rmw_field _ _ _ hm hs, rmw_frame _ _ _ hs⟩

theorem set_burstlength_no_prefetch_witness :
    ∃ fu', fetchunit_set_burstlength imx_hdr .u64 fu_zero 20 16 32 4096 false = .ok fu' ∧
      dpu_fu_read fu' 12 &&& 7936 = 4096 := by
  obtain ⟨fu', h1, -, -, -, h5⟩ :=
    set_burstlength_no_prefetch imx_hdr .u64 .u32 fu_zero 20 16 32 4096 0 0 0 0
  exact ⟨fu', h1, (h5 (by decide) (by decide)).1⟩

theorem round_up_exact_spec (x y : Nat) (hy : 0 < y) :
    y ∣ round_up_exact x y ∧ x ≤ round_up_exact x y ∧ round_up_exact x y < x + y := by
  unfold round_up_exact
  refine ⟨Nat.dvd_mul_left _ _, ?_, ?_⟩
  · have h1 := Nat.div_add_mod (x + y - 1) y
    have h2 := Nat.mod_lt (x + y - 1) hy
    have h3 : (x + y - 1) / y * y = y * ((x + y - 1) / y) := Nat.mul_comm _ _
    omega
  · have h1 := Nat.div_add_mod (x + y - 1) y
    have h3 : (x + y - 1) / y * y = y * ((x + y - 1) / y) := Nat.mul_comm _ _
    omega

/-- Setting the low `j` bits of `a`. -/
theorem or_two_pow_sub_one (a j : Nat) :
    a ||| (2 ^ j - 1) = 2 ^ j * (a / 2 ^ j) + (2 ^ j - 1) := by
  apply Nat.eq_of_testBit_eq
  intro i
  have hlt : 2 ^ j - 1 < 2 ^ j := Nat.sub_lt (Nat.two_pow_pos j) (by norm_num)
  rw [Nat.testBit_or, Nat.testBit_mul_pow_two_add _ hlt, Nat.testBit_two_pow_sub_one]
  by_cases h : i < j
  · simp [h]
  · simp only [h, decide_False, Bool.or_false, if_false]
    rw [← Nat.shiftRight_eq_div_pow, Nat.testBit_shiftRight]
    congr 1
    omega

/-- The kernel's `round_up` on a power of two agrees with exact rounding modulo the
width of its first argument. -/
theorem round_up_two_pow (w x j : Nat) (hx : x < 2 ^ w) (hj : j ≤ w) :
    round_up w x (2 ^ j) = round_up_exact x (2 ^ j) % 2 ^ w := by
  have hjpos : 0 < 2 ^ j := Nat.two_pow_pos j
  have hwpos : 0 < 2 ^ w := Nat.two_pow_pos w
  have hjw : 2 ^ j ≤ 2 ^ w := Nat.pow_le_pow_right (by norm_num) hj
  have hy : (2 ^ j + 2 ^ w - 1) % 2 ^ w = 2 ^ j - 1 := by
    have : 2 ^ j + 2 ^ w - 1 = (2 ^ j - 1) + 2 ^ w := by omega
    rw [this, Nat.add_mod_right, Nat.mod_eq_of_lt (by omega)]
  unfold round_up round_up_exact
  rw [hy, or_two_pow_sub_one]
  rcases Nat.eq_zero_or_pos x with h0 | hpos
  · subst h0
    have h1 : (0 + 2 ^ w - 1) % 2 ^ w = 2 ^ w - 1 := by
      rw [Nat.zero_add, Nat.mod_eq_of_lt (by omega)]
    have h2 : (0 + 2 ^ j - 1) / 2 ^ j = 0 := by
      rw [Nat.zero_add]; exact Nat.div_eq_of_lt (by omega)
    rw [h1, h2, Nat.zero_mul]
    have hd : 2 ^ j ∣ 2 ^ w := Nat.pow_dvd_pow 2 hj
    obtain ⟨q, hq⟩ := hd
    have hqpos : 0 < q := by
      rcases Nat.eq_zero_or_pos q with h | h
      · subst h; omega
      · exact h
    have h3 : (2 ^ w - 1) / 2 ^ j = q - 1 := by
      rw [hq]
      have : 2 ^ j * q - 1 = (2 ^ j - 1) + 2 ^ j * (q - 1) := by
        have : 2 ^ j * q = 2 ^ j * (q - 1) + 2 ^ j := by
          conv_lhs => rw [show q = (q - 1) + 1 by omega]
          rw [Nat.mul_add, Nat.mul_one]
        omega
      rw [this, Nat.add_mul_div_left _ _ hjpos, Nat.div_eq_of_lt (by omega), Nat.zero_add]
    rw [h3]
    have h4 : 2 ^ j * (q - 1) + (2 ^ j - 1) + 1 = 2 ^ w := by
      have : 2 ^ j * q = 2 ^ j * (q - 1) + 2 ^ j := by
        conv_lhs => rw [show q = (q - 1) + 1 by omega]
        rw [Nat.mul_add, Nat.mul_one]
      omega
    rw [h4, Nat.mod_self, Nat.zero_mod]
  · have h1 : (x + 2 ^ w - 1) % 2 ^ w = x - 1 := by
      have : x + 2 ^ w - 1 = (x - 1) + 2 ^ w := by omega
      rw [this, Nat.add_mod_right, Nat.mod_eq_of_lt (by omega)]
    rw [h1]
    have h2 : (x + 2 ^ j - 1) / 2 ^ j = (x - 1) / 2 ^ j + 1 := by
      have : x + 2 ^ j - 1 = (x - 1) + 2 ^ j := by omega
      rw [this, Nat.add_div_right _ hjpos]
    rw [h2]
    congr 1
    rw [Nat.add_mul, Nat.one_mul, Nat.mul_comm]
    omega

/-! ## Base address (C4, C5) -/

theorem dma_addr_width_bits_ge (c : dma_addr_width) : 32 ≤ c.bits := by
  cases c <;> decide

theorem u32_le_dma_addr_range (c : dma_addr_width) : 4294967296 ≤ 2 ^ c.bits := by
  cases c <;> decide

theorem corrected_baddr_exact (c : dma_addr_width) (x_offset mt_w : Nat) (bpp : Int)
    (baddr : Nat) (hw : mt_w ≠ 0) (hbpp : 0 ≤ bpp)
    (hprod : (x_offset % mt_w) * (bpp.toNat / 8) < 4294967296)
    (hsum : baddr + (x_offset % mt_w) * (bpp.toNat / 8) < 2 ^ c.bits) :
    corrected_baddr c x_offset mt_w bpp baddr
      = baddr + (x_offset % mt_w) * (bpp.toNat / 8) := by
  unfold corrected_baddr
  simp only [ne_eq, hw, not_false_eq_true, if_true]
  exact baddr_add_x_offset_exact c x_offset mt_w bpp baddr hbpp hsum hprod

theorem corrected_baddr_lt (c : dma_addr_width) (x_offset mt_w : Nat) (bpp : Int)
    (baddr : Nat) (hw : mt_w ≠ 0) :
    corrected_baddr c x_offset mt_w bpp baddr < 2 ^ c.bits := by
  unfold corrected_baddr baddr_add_x_offset
  simp only [ne_eq, hw, not_false_eq_true, if_true]
  exact Nat.mod_lt _ (Nat.two_pow_pos _)

/-- The burst size is one of the five powers of two from 8 to 128. -/
theorem burst_size_of_two_pow (baddr b : Nat) (h : burst_size_of baddr = .ok b) :
    ∃ j, 3 ≤ j ∧ j ≤ 7 ∧ b = 2 ^ j := by
  by_cases h0 : baddr % 4294967296 = 0
  · rw [burst_size_of_low32_zero _ h0] at h
    cases h
  · obtain ⟨k, -, -, -, hb⟩ := burst_size_of_eq baddr h0
    rw [hb] at h
    injection h with h
    subst h
    rcases clamp_two_pow_cases k with e | e | e | e | e <;> rw [e]
    · exact ⟨3, by norm_num, by norm_num, by norm_num⟩
    · exact ⟨4, by norm_num, by norm_num, by norm_num⟩
    · exact ⟨5, by norm_num, by norm_num, by norm_num⟩
    · exact ⟨6, by norm_num, by norm_num, by norm_num⟩
    · exact ⟨7, by norm_num, by norm_num, by norm_num⟩

/-- Without overflow the stride fixup is exact rounding: the stride plus the padding
for the address's remainder modulo 8, rounded up to a multiple of the burst size. -/
theorem stride_fixup_exact (c : dma_addr_width) (stride baddr j : Nat) (hj : j ≤ 32)
    (hS : round_up_exact (stride + round_up_exact (baddr % 8) 8) (2 ^ j) < 4294967296) :
    stride_fixup c stride baddr (2 ^ j)
      = round_up_exact (stride + round_up_exact (baddr % 8) 8) (2 ^ j) := by
  have hc := u32_le_dma_addr_range c
  have hb := dma_addr_width_bits_ge c
  have hle := (round_up_exact_spec (stride + round_up_exact (baddr % 8) 8) (2 ^ j)
    (Nat.two_pow_pos j)).2.1
  have hpad : round_up_exact (baddr % 8) 8 ≤ 8 := by
    have := (round_up_exact_spec (baddr % 8) 8 (by norm_num)).2.2
    have hd := (round_up_exact_spec (baddr % 8) 8 (by norm_num)).1
    omega
  have hin : round_up c.bits (baddr % 8) 8 = round_up_exact (baddr % 8) 8 := by
    have h8 : (8 : Nat) = 2 ^ 3 := by norm_num
    have hlt : baddr % 8 < 2 ^ c.bits := by omega
    have h := round_up_two_pow c.bits (baddr % 8) 3 hlt (by omega)
    rw [← h8] at h
    rw [h]
    exact Nat.mod_eq_of_lt (by omega)
  unfold stride_fixup
  rw [hin, Nat.mod_eq_of_lt (show stride + round_up_exact (baddr % 8) 8 < 2 ^ c.bits by omega),
    round_up_two_pow c.bits _ j (by omega) (by omega),
    Nat.mod_eq_of_lt (show round_up_exact (stride + round_up_exact (baddr % 8) 8) (2 ^ j)
      < 2 ^ c.bits by omega),
    Nat.mod_eq_of_lt hS]

theorem baseaddress_of_tiled (c : dma_addr_width) (width x_offset y_offset mt_w mt_h : Nat)
    (bpp : Int) (baddr : Nat) (hw : mt_w ≠ 0) :
    baseaddress_of c width x_offset y_offset mt_w mt_h bpp baddr =
      match burst_size_of (corrected_baddr c x_offset mt_w bpp baddr) with
      | .error e => .error e
      | .ok burst_size =>
        if mt_h = 0 then .error .modulo_by_zero
        else .ok ((corrected_baddr c x_offset mt_w bpp baddr
          + ((y_offset % mt_h) * stride_fixup c (to_u32 ((width : Int) * (bpp >>> (3 : Nat))))
              (corrected_baddr c x_offset mt_w bpp baddr) burst_size) % 4294967296)
          % 2 ^ c.bits) := by
  unfold baseaddress_of corrected_baddr
  simp [hw]

theorem to_u32_width_mul_bpp (width : Nat) (bpp : Int) (hbpp : 0 ≤ bpp)
    (h : width * (bpp.toNat / 8) < 4294967296) :
    to_u32 ((width : Int) * (bpp >>> (3 : Nat))) = width * (bpp.toNat / 8) := by
  obtain ⟨n, rfl⟩ := Int.eq_ofNat_of_zero_le hbpp
  have h8 : ((n : Int) >>> (3 : Nat)) = ((n / 8 : Nat) : Int) := by
    rw [Int.shiftRight_eq_div_pow]
    norm_cast
  simp only [Int.toNat_ofNat] at h
  rw [h8, ← Nat.cast_mul, to_u32_natCast _ h, Int.toNat_ofNat]

/-- C4 (amended): for `mt_w ≠ 0`, `mt_h ≠ 0`, `bpp ≥ 0` and a corrected address
`A = baddr + (x_offset % mt_w) * (bpp / 8)` that fits its type and whose low 32
bits are not all zero, the burst size `B` of `A` is defined and, when the stride
`S = round_up(width * (bpp / 8) + round_up(A % 8, 8), B)` and the sum
`A + (y_offset % mt_h) * S` stay below `2 ^ 32`, `fetchunit_set_baseaddress` writes
`A + (y_offset % mt_h) * S` to BASEADDRESS(sub_id). For `width = 64`, `bpp = 32`,
`mt_w = mt_h = 16`, `x_offset = y_offset = 20`, `baddr = 0x1000` the value written
is `0x1410`. -/
theorem set_baseaddress_tiled (c : dma_addr_width) (fu : dpu_fetchunit)
    (width x_offset y_offset mt_w mt_h : Nat) (bpp : Int) (baddr : Nat)
    (hw : mt_w ≠ 0) (hh : mt_h ≠ 0) (hbpp : 0 ≤ bpp)
    (hprod : (x_offset % mt_w) * (bpp.toNat / 8) < 4294967296)
    (hsum : baddr + (x_offset % mt_w) * (bpp.toNat / 8) < 2 ^ c.bits)
    (hlow : (baddr + (x_offset % mt_w) * (bpp.toNat / 8)) % 4294967296 ≠ 0) :
    (corrected_baddr c x_offset mt_w bpp baddr
        = baddr + (x_offset % mt_w) * (bpp.toNat / 8) ∧
      ∃ B S, burst_size_of (baddr + (x_offset % mt_w) * (bpp.toNat / 8)) = .ok B ∧
        S = round_up_exact (width * (bpp.toNat / 8)
          + round_up_exact ((baddr + (x_offset % mt_w) * (bpp.toNat / 8)) % 8) 8) B ∧
        (S < 4294967296 →
          baddr + (x_offset % mt_w) * (bpp.toNat / 8) + (y_offset % mt_h) * S < 4294967296 →
          fetchunit_set_baseaddress c fu width x_offset y_offset mt_w mt_h bpp baddr
            = .ok (dpu_fu_write fu
                (baddr + (x_offset % mt_w) * (bpp.toNat / 8) + (y_offset % mt_h) * S)
                (BASEADDRESS fu.sub_id)) ∧
          dpu_fu_read (dpu_fu_write fu
                (baddr + (x_offset % mt_w) * (bpp.toNat / 8) + (y_offset % mt_h) * S)
                (BASEADDRESS fu.sub_id)) (BASEADDRESS fu.sub_id)
            = baddr + (x_offset % mt_w) * (bpp.toNat / 8) + (y_offset % mt_h) * S)) ∧
    fetchunit_set_baseaddress c fu 64 20 20 16 16 32 4096
      = .ok (dpu_fu_write fu 5136 (BASEADDRESS fu.sub_id)) := by
  constructor
  · have hA := corrected_baddr_exact c x_offset mt_w bpp baddr hw hbpp hprod hsum
    refine ⟨hA, ?_⟩
    obtain ⟨k, -, -, -, hb⟩ := burst_size_of_eq _ hlow
    obtain ⟨j, -, hj7, hj⟩ := burst_size_of_two_pow _ _ hb
    rw [hj] at hb
    refine ⟨2 ^ j, _, hb, rfl, ?_⟩
    intro hS hfin
    have hc := u32_le_dma_addr_range c
    have hle := (round_up_exact_spec (width * (bpp.toNat / 8)
      + round_up_exact ((baddr + (x_offset % mt_w) * (bpp.toNat / 8)) % 8) 8) (2 ^ j)
      (Nat.two_pow_pos j)).2.1
    have hst := to_u32_width_mul_bpp width bpp hbpp (by omega)
    have hfix := stride_fixup_exact c (width * (bpp.toNat / 8))
      (baddr + (x_offset % mt_w) * (bpp.toNat / 8)) j (by omega) hS
    generalize round_up_exact (width * (bpp.toNat / 8)
      + round_up_exact ((baddr + (x_offset % mt_w) * (bpp.toNat / 8)) % 8) 8) (2 ^ j) = S
      at hS hfin hle hfix ⊢
    generalize baddr + (x_offset % mt_w) * (bpp.toNat / 8) = A at hA hb hfin hfix hsum hlow ⊢
    have h1 : ((y_offset % mt_h) * S) % 4294967296 = (y_offset % mt_h) * S :=
      Nat.mod_eq_of_lt (by omega)
    have h2 : (A + (y_offset % mt_h) * S) % 2 ^ c.bits = A + (y_offset % mt_h) * S :=
      Nat.mod_eq_of_lt (by omega)
    constructor
    · unfold fetchunit_set_baseaddress
      rw [baseaddress_of_tiled _ _ _ _ _ _ _ _ hw, hA, hb]
      simp only [hh, if_false]
      rw [hst, hfix, h1, h2]
    · simp only [dpu_fu_read, dpu_fu_write, Function.update_same]
      rw [Nat.mod_mod, Nat.mod_eq_of_lt hfin]
  · have e : baseaddress_of c 64 20 20 16 16 32 4096 = .ok 5136 := by
      cases c <;> rfl
    unfold fetchunit_set_baseaddress
    rw [e]

theorem set_baseaddress_tiled_witness :
    fetchunit_set_baseaddress .u64 fu_zero 64 20 20 16 16 32 4096
        = .ok (dpu_fu_write fu_zero 5136 (BASEADDRESS fu_zero.sub_id)) ∧
      corrected_baddr .u64 20 16 32 4096 = 4096 + (20 % 16) * ((32 : Int).toNat / 8) :=
  ⟨(set_baseaddress_tiled .u64 fu_zero 64 20 20 16 16 32 4096 (by decide) (by decide)
      (by decide) (by decide) (by decide) (by decide)).2,
    (set_baseaddress_tiled .u64 fu_zero 64 20 20 16 16 32 4096 (by decide) (by decide)
      (by decide) (by decide) (by decide) (by decide)).1.1⟩

/-- Three inputs with `mt_w ≠ 0`, `mt_h ≠ 0` and a nonzero corrected address where the
value written is not `A + (y_offset % mt_h) * S`: a 64-bit address whose low 32 bits
are zero (nothing is written, the shift count is `-1`); a negative `bpp`, where
`bpp / 8 = 0` but `bpp >> 3 = -1` (formula `0x1000`, register `0xF80`); and a sum
that leaves 32 bits (formula `2 ^ 32`, register `0`). -/
theorem set_baseaddress_tiled_counterexample :
    (corrected_baddr .u64 0 16 32 4294967296 = 4294967296 ∧
      fetchunit_set_baseaddress .u64 fu_zero 64 0 1 16 16 32 4294967296
        = .error .shift_by_negative) ∧
    (corrected_baddr .u64 0 16 (-1) 4096 = 4096 ∧
      burst_size_of 4096 = .ok 128 ∧
      4096 + (1 % 16) * round_up_exact (129 * 0 + round_up_exact (4096 % 8) 8) 128 = 4096 ∧
      ∃ fu', fetchunit_set_baseaddress .u64 fu_zero 129 0 1 16 16 (-1) 4096 = .ok fu' ∧
        dpu_fu_read fu' (BASEADDRESS 0) = 3968) ∧
    (corrected_baddr .u32 0 16 32 4294967040 = 4294967040 ∧
      burst_size_of 4294967040 = .ok 128 ∧
      4294967040 + (1 % 16) * round_up_exact (64 * (32 / 8) + round_up_exact (4294967040 % 8) 8)
        128 = 4294967296 ∧
      ∃ fu', fetchunit_set_baseaddress .u32 fu_zero 64 0 1 16 16 32 4294967040 = .ok fu' ∧
        dpu_fu_read fu' (BASEADDRESS 0) = 0) := by
  refine ⟨⟨by decide, ?_⟩, ⟨by decide, rfl, by decide, ?_⟩, ⟨by decide, rfl, by decide, ?_⟩⟩
  · have e : baseaddress_of .u64 64 0 1 16 16 32 4294967296 = .error .shift_by_negative := rfl
    unfold fetchunit_set_baseaddress
    rw [e]
  · have e : baseaddress_of .u64 129 0 1 16 16 (-1) 4096 = .ok 4294971264 := rfl
    refine ⟨dpu_fu_write fu_zero 4294971264 (BASEADDRESS fu_zero.sub_id), ?_, ?_⟩
    · unfold fetchunit_set_baseaddress
      rw [e]
    · simp [dpu_fu_read, dpu_fu_write, fu_zero]
  · have e : baseaddress_of .u32 64 0 1 16 16 32 4294967040 = .ok 0 := rfl
    refine ⟨dpu_fu_write fu_zero 0 (BASEADDRESS fu_zero.sub_id), ?_, ?_⟩
    · unfold fetchunit_set_baseaddress
      rw [e]
    · simp [dpu_fu_read, dpu_fu_write, fu_zero]

/-- C5: with `mt_w = 0`, `fetchunit_set_baseaddress` returns normally for every
`width`, `x_offset`, `y_offset`, `mt_h`, `bpp` and `baddr`, computes no correction
(the address handed to the register write is `baddr` itself) and writes it to
BASEADDRESS(sub_id), which then holds the 32-bit value of `baddr`; every other
register and every other field of the unit is unchanged. -/
theorem set_baseaddress_untiled (c : dma_addr_width) (fu : dpu_fetchunit)
    (width x_offset y_offset mt_h : Nat) (bpp : Int) (baddr : Nat) :
    baseaddress_of c width x_offset y_offset 0 mt_h bpp baddr = .ok baddr ∧
    ∃ fu', fetchunit_set_baseaddress c fu width x_offset y_offset 0 mt_h bpp baddr = .ok fu' ∧
      fu' = dpu_fu_write fu baddr (BASEADDRESS fu.sub_id) ∧
      fu'.base (BASEADDRESS fu.sub_id) = baddr % 4294967296 ∧
      (∀ offset, offset ≠ BASEADDRESS fu.sub_id → fu'.base offset = fu.base offset) ∧
      fu'.id = fu.id ∧ fu'.sub_id = fu.sub_id ∧ fu'.type = fu.type ∧
      fu'.stream_id = fu.stream_id ∧ fu'.pin_off = fu.pin_off ∧ fu'.dprc = fu.dprc := by
  have e : baseaddress_of c width x_offset y_offset 0 mt_h bpp baddr = .ok baddr := by
    unfold baseaddress_of
    simp
  refine ⟨e, dpu_fu_write fu baddr (BASEADDRESS fu.sub_id), ?_, rfl, ?_, ?_,
    rfl, rfl, rfl, rfl, rfl, rfl⟩
  · unfold fetchunit_set_baseaddress
    rw [e]
  · simp [dpu_fu_write]
  · intro offset hne
    simp [dpu_fu_write, Function.update_noteq hne]

/-! ## Register access lemmas -/

theorem dpu_fu_read_write_same (fu : dpu_fetchunit) (value offset : Nat) :
    dpu_fu_read (dpu_fu_write fu value offset) offset = value % 4294967296 := by
  simp [dpu_fu_read, dpu_fu_write]

theorem dpu_fu_write_base_other (fu : dpu_fetchunit) (value offset offset' : Nat)
    (hne : offset' ≠ offset) :
    (dpu_fu_write fu value offset).base offset' = fu.base offset' := by
  simp [dpu_fu_write, Function.update_noteq hne]

theorem dpu_fu_write_write (fu : dpu_fetchunit) (v v' offset : Nat) :
    dpu_fu_write (dpu_fu_write fu v offset) v' offset = dpu_fu_write fu v' offset := by
  simp [dpu_fu_write]

theorem dpu_fu_write_congr (fu : dpu_fetchunit) (v v' offset : Nat)
    (h : v % 4294967296 = v' % 4294967296) :
    dpu_fu_write fu v offset = dpu_fu_write fu v' offset := by
  simp [dpu_fu_write, h]

/-! ## Stride without prefetch (C6) -/

/-- C6: with `use_prefetch = false`, `fetchunit_set_src_stride` returns normally,
keeps the caller's `stride` (no recomputation) and programs `STRIDE(stride)` into
SOURCEBUFFERATTRIBUTES(sub_id): the state reached is the same for every address
width, `width`, `x_offset`, `mt_w`, `bpp` and `baddr`, registers at other offsets are
untouched, and when `STRIDE(stride)` lies inside the mask `0xffff` the bits under
the mask read back as `STRIDE(stride)` while the other bits keep their value. -/
theorem set_src_stride_no_prefetch (h : dpu_hdr) (c c' : dma_addr_width) (fu : dpu_fetchunit)
    (width x_offset mt_w : Nat) (bpp : Int) (stride baddr : Nat)
    (width' x_offset' mt_w' : Nat) (bpp' : Int) (baddr' : Nat) :
    src_stride_of c width x_offset mt_w bpp stride baddr false = .ok stride ∧
    ∃ fu', fetchunit_set_src_stride h c fu width x_offset mt_w bpp stride baddr false
        = .ok fu' ∧
      fetchunit_set_src_stride h c' fu width' x_offset' mt_w' bpp' stride baddr' false
        = .ok fu' ∧
      fu' = dpu_fu_write fu
        ((and_not32 (dpu_fu_read fu (SOURCEBUFFERATTRIBUTES fu.sub_id)) 0xffff
          ||| h.STRIDE stride) % 4294967296) (SOURCEBUFFERATTRIBUTES fu.sub_id) ∧
      (∀ offset, offset ≠ SOURCEBUFFERATTRIBUTES fu.sub_id →
        fu'.base offset = fu.base offset) ∧
      (h.STRIDE stride &&& 0xffff = h.STRIDE stride →
        dpu_fu_read fu' (SOURCEBUFFERATTRIBUTES fu.sub_id) &&& 0xffff = h.STRIDE stride ∧
          and_not32 (dpu_fu_read fu' (SOURCEBUFFERATTRIBUTES fu.sub_id)) 0xffff
            = and_not32 (dpu_fu_read fu (SOURCEBUFFERATTRIBUTES fu.sub_id)) 0xffff) := by
  refine ⟨rfl, _, rfl, rfl, rfl, ?_, ?_⟩
  · intro offset hne
    exact dpu_fu_write_base_other _ _ _ _ hne
  · intro hs
    rw [dpu_fu_read_write_same, Nat.mod_mod]
    exact ⟨rmw_field _ _ _ (by norm_num) hs, rmw_frame _ _ _ hs⟩

theorem set_src_stride_no_prefetch_witness :
    ∃ fu', fetchunit_set_src_stride imx_hdr .u64 fu_zero 64 20 16 32 256 4096 false = .ok fu' ∧
      dpu_fu_read fu' (SOURCEBUFFERATTRIBUTES fu_zero.sub_id) &&& 0xffff = 255 := by
  obtain ⟨-, fu', h1, -, -, -, h5⟩ :=
    set_src_stride_no_prefetch imx_hdr .u64 .u32 fu_zero 64 20 16 32 256 4096 0 0 0 0 0
  exact ⟨fu', h1, (h5 (by decide)).1⟩

/-! ## Stream id (C7) -/

/-- C7: on a unit `fu`, `fetchunit_set_stream_id` with an `id` other than
DPU_PLANE_SRC_TO_DISP_STREAM0, DPU_PLANE_SRC_TO_DISP_STREAM1 and
DPU_PLANE_SRC_DISABLED warns and leaves the unit, its `stream_id` included,
unchanged; with one of the three it stores `id` and changes no other field, and
`fetchunit_get_stream_id` then returns `id`. -/
theorem set_stream_id_validates (h : dpu_hdr) (fu : dpu_fetchunit) (id : Nat) :
    (¬ (id = h.DPU_PLANE_SRC_TO_DISP_STREAM0 ∨ id = h.DPU_PLANE_SRC_TO_DISP_STREAM1
          ∨ id = h.DPU_PLANE_SRC_DISABLED) →
      fetchunit_set_stream_id h (some fu) id = (some fu, true) ∧
        fetchunit_get_stream_id h (fetchunit_set_stream_id h (some fu) id).1
          = (fu.stream_id, false)) ∧
    ((id = h.DPU_PLANE_SRC_TO_DISP_STREAM0 ∨ id = h.DPU_PLANE_SRC_TO_DISP_STREAM1
          ∨ id = h.DPU_PLANE_SRC_DISABLED) →
      fetchunit_set_stream_id h (some fu) id = (some { fu with stream_id := id }, false) ∧
        fetchunit_get_stream_id h (fetchunit_set_stream_id h (some fu) id).1 = (id, false)) := by
  constructor
  · intro hid
    have e : fetchunit_set_stream_id h (some fu) id = (some fu, true) := by
      simp only [fetchunit_set_stream_id, hid, if_false]
    rw [e]
    exact ⟨rfl, rfl⟩
  · intro hid
    have e : fetchunit_set_stream_id h (some fu) id
        = (some { fu with stream_id := id }, false) := by
      simp only [fetchunit_set_stream_id, hid, if_true]
    rw [e]
    exact ⟨rfl, rfl⟩

theorem set_stream_id_validates_witness :
    fetchunit_set_stream_id imx_hdr (some fu_zero) 7 = (some fu_zero, true) ∧
      fetchunit_get_stream_id imx_hdr (fetchunit_set_stream_id imx_hdr (some fu_zero) 2).1
        = (2, false) :=
  ⟨((set_stream_id_validates imx_hdr fu_zero 7).1 (by decide)).1,
    ((set_stream_id_validates imx_hdr fu_zero 2).2 (by decide)).2⟩

/-! ## Source-buffer enable (C8) -/

theorem or_mod_and_self (v e : Nat) :
    ((v ||| e) % 4294967296) &&& e = e % 4294967296 := by
  apply Nat.eq_of_testBit_eq
  intro i
  rw [Nat.testBit_and, testBit_mod_u32, testBit_mod_u32, Nat.testBit_or]
  by_cases h : i < 32 <;> cases v.testBit i <;> cases e.testBit i <;> simp [h]

theorem and_not32_and_self (v e : Nat) : (and_not32 v e % 4294967296) &&& e = 0 := by
  apply Nat.eq_of_testBit_eq
  intro i
  rw [Nat.testBit_and, testBit_mod_u32, testBit_and_not32, Nat.zero_testBit]
  by_cases h : i < 32 <;> cases v.testBit i <;> cases e.testBit i <;> simp [h]

theorem or_mod_idem (v e : Nat) :
    (((v ||| e) % 4294967296) % 4294967296 ||| e) % 4294967296 = (v ||| e) % 4294967296 := by
  apply Nat.eq_of_testBit_eq
  intro i
  rw [testBit_mod_u32, Nat.testBit_or, testBit_mod_u32, testBit_mod_u32, Nat.testBit_or]
  by_cases h : i < 32 <;> cases v.testBit i <;> cases e.testBit i <;> simp [h]

theorem and_not32_idem (v e : Nat) :
    and_not32 (and_not32 v e % 4294967296) e = and_not32 v e := by
  apply Nat.eq_of_testBit_eq
  intro i
  rw [testBit_and_not32, testBit_mod_u32, testBit_and_not32]
  by_cases h : i < 32 <;> cases v.testBit i <;> cases e.testBit i <;> simp [h]

theorem fetchunit_enable_src_buf_eq (h : dpu_hdr) (fu : dpu_fetchunit) :
    fetchunit_enable_src_buf h fu = dpu_fu_write fu
      ((dpu_fu_read fu (LAYERPROPERTY fu.sub_id) ||| h.SOURCEBUFFERENABLE) % 4294967296)
      (LAYERPROPERTY fu.sub_id) := rfl

theorem fetchunit_disable_src_buf_eq (h : dpu_hdr) (fu : dpu_fetchunit) :
    fetchunit_disable_src_buf h fu = dpu_fu_write fu
      (and_not32 (dpu_fu_read fu (LAYERPROPERTY fu.sub_id)) h.SOURCEBUFFERENABLE)
      (LAYERPROPERTY fu.sub_id) := rfl

theorem fetchunit_is_enabled_eq (h : dpu_hdr) (fu : dpu_fetchunit) :
    fetchunit_is_enabled h fu
      = decide (dpu_fu_read fu (LAYERPROPERTY fu.sub_id) &&& h.SOURCEBUFFERENABLE ≠ 0) := rfl

theorem dpu_fu_write_sub_id (fu : dpu_fetchunit) (value offset : Nat) :
    (dpu_fu_write fu value offset).sub_id = fu.sub_id := rfl

/-- C8: when SOURCEBUFFERENABLE has a bit inside the 32-bit register, from every
state `fetchunit_is_enabled` is true after `fetchunit_enable_src_buf` and false after
`fetchunit_disable_src_buf`, also when the opposite call came just before (the last
call decides), and a second enable (or disable) in a row does not change the state
the first one reached. -/
theorem src_buf_enable_disable (h : dpu_hdr) (fu : dpu_fetchunit)
    (hbit : h.SOURCEBUFFERENABLE % 4294967296 ≠ 0) :
    fetchunit_is_enabled h (fetchunit_enable_src_buf h fu) = true ∧
    fetchunit_is_enabled h (fetchunit_disable_src_buf h fu) = false ∧
    fetchunit_is_enabled h (fetchunit_enable_src_buf h (fetchunit_disable_src_buf h fu))
      = true ∧
    fetchunit_is_enabled h (fetchunit_disable_src_buf h (fetchunit_enable_src_buf h fu))
      = false ∧
    fetchunit_enable_src_buf h (fetchunit_enable_src_buf h fu)
      = fetchunit_enable_src_buf h fu ∧
    fetchunit_disable_src_buf h (fetchunit_disable_src_buf h fu)
      = fetchunit_disable_src_buf h fu := by
  have hen : ∀ fu : dpu_fetchunit,
      fetchunit_is_enabled h (fetchunit_enable_src_buf h fu) = true := by
    intro fu
    rw [fetchunit_is_enabled_eq, fetchunit_enable_src_buf_eq, dpu_fu_write_sub_id,
      dpu_fu_read_write_same, Nat.mod_mod, or_mod_and_self]
    exact decide_eq_true hbit
  have hdis : ∀ fu : dpu_fetchunit,
      fetchunit_is_enabled h (fetchunit_disable_src_buf h fu) = false := by
    intro fu
    rw [fetchunit_is_enabled_eq, fetchunit_disable_src_buf_eq, dpu_fu_write_sub_id,
      dpu_fu_read_write_same, and_not32_and_self]
    simp
  refine ⟨hen fu, hdis fu, hen _, hdis _, ?_, ?_⟩
  · rw [fetchunit_enable_src_buf_eq h (fetchunit_enable_src_buf h fu),
      fetchunit_enable_src_buf_eq h fu, dpu_fu_write_sub_id,
      dpu_fu_read_write_same, dpu_fu_write_write]
    exact dpu_fu_write_congr _ _ _ _ (by rw [or_mod_idem])
  · rw [fetchunit_disable_src_buf_eq h (fetchunit_disable_src_buf h fu),
      fetchunit_disable_src_buf_eq h fu, dpu_fu_write_sub_id,
      dpu_fu_read_write_same, dpu_fu_write_write, and_not32_idem]

theorem src_buf_enable_disable_witness :
    imx_hdr.SOURCEBUFFERENABLE % 4294967296 ≠ 0 ∧
      fetchunit_is_enabled imx_hdr (fetchunit_enable_src_buf imx_hdr fu_zero) = true ∧
      fetchunit_is_enabled imx_hdr (fetchunit_disable_src_buf imx_hdr fu_zero) = false :=
  ⟨by decide, (src_buf_enable_disable imx_hdr fu_zero (by decide)).1,
    (src_buf_enable_disable imx_hdr fu_zero (by decide)).2.1⟩

/-! ## The x-offset correction (C9) -/

/-- C9: for every `bpp`, `mt_w` and every `baddr` of type `dma_addr_t`, the
correction `baddr + (x_offset % mt_w) * (bpp / 8)` with `x_offset = 0` returns
`baddr`; applied to an address that was already corrected (with any `x_offset`) it
returns that address. -/
theorem x_offset_zero_noop (c : dma_addr_width) (x_offset mt_w : Nat) (bpp : Int)
    (baddr : Nat) (hb : baddr < 2 ^ c.bits) :
    baddr_add_x_offset c 0 mt_w bpp baddr = baddr ∧
    baddr_add_x_offset c 0 mt_w bpp (baddr_add_x_offset c x_offset mt_w bpp baddr)
      = baddr_add_x_offset c x_offset mt_w bpp baddr := by
  have h0 : ∀ a, a < 2 ^ c.bits → baddr_add_x_offset c 0 mt_w bpp a = a := by
    intro a ha
    unfold baddr_add_x_offset
    have : to_u32 (((0 % mt_w : Nat) : Int) * bpp.tdiv 8) = 0 := by
      simp [to_u32]
    rw [this, Nat.add_zero, Nat.mod_eq_of_lt ha]
  refine ⟨h0 baddr hb, h0 _ ?_⟩
  unfold baddr_add_x_offset
  exact Nat.mod_lt _ (Nat.two_pow_pos _)

theorem x_offset_zero_noop_witness :
    (4096 : Nat) < 2 ^ dma_addr_width.u32.bits ∧
      baddr_add_x_offset .u32 0 16 32 4096 = 4096 :=
  ⟨by decide, (x_offset_zero_noop .u32 20 16 32 4096 (by decide)).1⟩

/-! ## Alignment of the address to the burst size (C10) -/

/-- C10 (amended): for every corrected base address whose low 32 bits are not all
zero the burst size `B` is defined; when the address is a multiple of 8 it is a
multiple of `B`, and when it is not, `B` is 8, the smallest burst, and the address
is not aligned to it. -/
theorem burst_size_dvd_of_aligned (baddr : Nat) (hlow : baddr % 4294967296 ≠ 0) :
    ∃ B, burst_size_of baddr = .ok B ∧ (8 ∣ baddr → B ∣ baddr) ∧
      (¬ 8 ∣ baddr → B = 8 ∧ ¬ B ∣ baddr) := by
  obtain ⟨k, -, d1, d2, hb⟩ := burst_size_of_eq baddr hlow
  refine ⟨_, hb, ?_, ?_⟩
  · intro h8
    have hk3 : 3 ≤ k := by
      by_contra hlt
      have : 2 ^ (k + 1) ∣ 2 ^ 3 := Nat.pow_dvd_pow 2 (by omega)
      exact d2 (Nat.dvd_trans this h8)
    have hge : 8 ≤ 2 ^ k := by
      have : 2 ^ 3 ≤ 2 ^ k := Nat.pow_le_pow_right (by norm_num) hk3
      simpa using this
    rw [Nat.max_eq_left hge]
    by_cases hk7 : k ≤ 7
    · have : 2 ^ k ≤ 2 ^ 7 := Nat.pow_le_pow_right (by norm_num) hk7
      rw [Nat.min_eq_left (by simpa using this)]
      exact d1
    · have : 2 ^ 7 ≤ 2 ^ k := Nat.pow_le_pow_right (by norm_num) (by omega)
      rw [Nat.min_eq_right (by simpa using this)]
      have hd : 2 ^ 7 ∣ 2 ^ k := Nat.pow_dvd_pow 2 (by omega)
      exact Nat.dvd_trans (by simpa using hd) d1
  · intro h8
    have hk3 : k < 3 := by
      by_contra hge
      have : 2 ^ 3 ∣ 2 ^ k := Nat.pow_dvd_pow 2 (by omega)
      exact h8 (Nat.dvd_trans (by simpa using this) d1)
    have e : min (max (2 ^ k) 8) 128 = 8 := by
      interval_cases k <;> rfl
    rw [e]
    exact ⟨rfl, h8⟩

theorem burst_size_dvd_of_aligned_witness :
    (4112 : Nat) % 4294967296 ≠ 0 ∧
      ∃ B, burst_size_of 4112 = .ok B ∧ (8 ∣ 4112 → B ∣ 4112) ∧
        (¬ 8 ∣ 4112 → B = 8 ∧ ¬ B ∣ 4112) :=
  ⟨by decide, burst_size_dvd_of_aligned 4112 (by decide)⟩

/-- With `x_offset = 17`, `mt_w = 16`, `bpp = 32`, `baddr = 0x1000` the corrected
address is `0x1004`; its burst size is 8 and does not divide it. -/
theorem burst_size_dvd_counterexample :
    corrected_baddr .u64 17 16 32 4096 = 4100 ∧ (4100 : Nat) ≠ 0 ∧
      burst_size_of 4100 = .ok 8 ∧ ¬ 8 ∣ 4100 ∧
      burst_length_of .u64 17 16 32 4096 true = .ok 1 :=
  ⟨by decide, by decide, rfl, by decide, rfl⟩

/-! ## Stride under prefetch (C11) -/

theorem src_stride_of_prefetch (c : dma_addr_width) (width x_offset mt_w : Nat) (bpp : Int)
    (stride baddr : Nat) :
    src_stride_of c width x_offset mt_w bpp stride baddr true =
      match burst_size_of (corrected_baddr c x_offset mt_w bpp baddr) with
      | .error e => .error e
      | .ok burst_size =>
        if mt_w ≠ 0 then
          .ok (stride_fixup c (to_u32 ((width : Int) * (bpp >>> (3 : Nat))))
            (corrected_baddr c x_offset mt_w bpp baddr) burst_size)
        else
          .ok (round_up 32 (to_u32 ((width : Int) * (bpp >>> (3 : Nat)))) burst_size) := by
  unfold src_stride_of corrected_baddr
  by_cases h : mt_w = 0 <;> simp [h]

theorem and_not32_or_mod (v e : Nat) :
    and_not32 ((v ||| e) % 4294967296) e = and_not32 v e := by
  apply Nat.eq_of_testBit_eq
  intro i
  rw [testBit_and_not32, testBit_mod_u32, Nat.testBit_or, testBit_and_not32]
  by_cases h : i < 32 <;> cases v.testBit i <;> cases e.testBit i <;> simp [h]

theorem fetchunit_shden_eq (h : dpu_hdr) (fu : dpu_fetchunit) (enable : Bool) :
    fetchunit_shden h fu enable = dpu_fu_write fu
      (if enable then (dpu_fu_read fu h.STATICCONTROL ||| h.SHDEN) % 4294967296
        else and_not32 (dpu_fu_read fu h.STATICCONTROL) h.SHDEN) h.STATICCONTROL := rfl

theorem fetchunit_baddr_autoupdate_eq (h : dpu_hdr) (fu : dpu_fetchunit) (layer_mask : Nat) :
    fetchunit_baddr_autoupdate h fu layer_mask = dpu_fu_write fu
      ((and_not32 (dpu_fu_read fu h.STATICCONTROL) h.BASEADDRESSAUTOUPDATE_MASK
        ||| h.BASEADDRESSAUTOUPDATE layer_mask) % 4294967296) h.STATICCONTROL := rfl

theorem fetchunit_shdldreq_sticky_eq (h : dpu_hdr) (fu : dpu_fetchunit) (layer_mask : Nat) :
    fetchunit_shdldreq_sticky h fu layer_mask = dpu_fu_write fu
      ((and_not32 (dpu_fu_read fu h.STATICCONTROL) h.SHDLDREQSTICKY_MASK
        ||| h.SHDLDREQSTICKY layer_mask) % 4294967296) h.STATICCONTROL := rfl

/-- C12: when the encoded layer mask lies inside its 32-bit field mask,
`fetchunit_baddr_autoupdate` and `fetchunit_shdldreq_sticky` leave the encoded
`layer_mask` under their mask of STATICCONTROL and keep every bit outside it;
`fetchunit_shden` sets (the 32-bit part of) SHDEN or clears it and keeps every other
bit. Each of the three writes STATICCONTROL only: registers at other offsets and
the other fields of the unit are unchanged. -/
theorem staticcontrol_updates (h : dpu_hdr) (fu : dpu_fetchunit) (layer_mask : Nat) :
    ((h.BASEADDRESSAUTOUPDATE_MASK < 4294967296 →
        h.BASEADDRESSAUTOUPDATE layer_mask &&& h.BASEADDRESSAUTOUPDATE_MASK
          = h.BASEADDRESSAUTOUPDATE layer_mask →
        dpu_fu_read (fetchunit_baddr_autoupdate h fu layer_mask) h.STATICCONTROL
            &&& h.BASEADDRESSAUTOUPDATE_MASK = h.BASEADDRESSAUTOUPDATE layer_mask ∧
          and_not32 (dpu_fu_read (fetchunit_baddr_autoupdate h fu layer_mask) h.STATICCONTROL)
              h.BASEADDRESSAUTOUPDATE_MASK
            = and_not32 (dpu_fu_read fu h.STATICCONTROL) h.BASEADDRESSAUTOUPDATE_MASK) ∧
      (∀ offset, offset ≠ h.STATICCONTROL →
        (fetchunit_baddr_autoupdate h fu layer_mask).base offset = fu.base offset) ∧
      { fetchunit_baddr_autoupdate h fu layer_mask with base := fu.base } = fu) ∧
    ((h.SHDLDREQSTICKY_MASK < 4294967296 →
        h.SHDLDREQSTICKY layer_mask &&& h.SHDLDREQSTICKY_MASK = h.SHDLDREQSTICKY layer_mask →
        dpu_fu_read (fetchunit_shdldreq_sticky h fu layer_mask) h.STATICCONTROL
            &&& h.SHDLDREQSTICKY_MASK = h.SHDLDREQSTICKY layer_mask ∧
          and_not32 (dpu_fu_read (fetchunit_shdldreq_sticky h fu layer_mask) h.STATICCONTROL)
              h.SHDLDREQSTICKY_MASK
            = and_not32 (dpu_fu_read fu h.STATICCONTROL) h.SHDLDREQSTICKY_MASK) ∧
      (∀ offset, offset ≠ h.STATICCONTROL →
        (fetchunit_shdldreq_sticky h fu layer_mask).base offset = fu.base offset) ∧
      { fetchunit_shdldreq_sticky h fu layer_mask with base := fu.base } = fu) ∧
    (dpu_fu_read (fetchunit_shden h fu true) h.STATICCONTROL &&& h.SHDEN
        = h.SHDEN % 4294967296 ∧
      dpu_fu_read (fetchunit_shden h fu false) h.STATICCONTROL &&& h.SHDEN = 0 ∧
      (∀ enable, and_not32 (dpu_fu_read (fetchunit_shden h fu enable) h.STATICCONTROL) h.SHDEN
          = and_not32 (dpu_fu_read fu h.STATICCONTROL) h.SHDEN) ∧
      (∀ enable offset, offset ≠ h.STATICCONTROL →
        (fetchunit_shden h fu enable).base offset = fu.base offset) ∧
      (∀ enable, { fetchunit_shden h fu enable with base := fu.base } = fu)) := by
  refine ⟨⟨?_, ?_, rfl⟩, ⟨?_, ?_, rfl⟩, ?_, ?_, ?_, ?_, ?_⟩
  · intro hm hs
    rw [fetchunit_baddr_autoupdate_eq, dpu_fu_read_write_same, Nat.mod_mod]
    exact ⟨rmw_field _ _ _ hm hs, rmw_frame _ _ _ hs⟩
  · intro offset hne
    rw [fetchunit_baddr_autoupdate_eq]
    exact dpu_fu_write_base_other _ _ _ _ hne
  · intro hm hs
    rw [fetchunit_shdldreq_sticky_eq, dpu_fu_read_write_same, Nat.mod_mod]
    exact ⟨rmw_field _ _ _ hm hs, rmw_frame _ _ _ hs⟩
  · intro offset hne
    rw [fetchunit_shdldreq_sticky_eq]
    exact dpu_fu_write_base_other _ _ _ _ hne
  · rw [fetchunit_shden_eq, dpu_fu_read_write_same]
    simp only [if_true]
    rw [Nat.mod_mod, or_mod_and_self]
  · rw [fetchunit_shden_eq, dpu_fu_read_write_same]
    simp only [Bool.false_eq_true, if_false]
    rw [and_not32_and_self]
  · intro enable
    rw [fetchunit_shden_eq, dpu_fu_read_write_same]
    cases enable
    · simp only [Bool.false_eq_true, if_false]
      rw [and_not32_idem]
    · simp only [if_true]
      rw [Nat.mod_mod, and_not32_or_mod]
  · intro enable offset hne
    rw [fetchunit_shden_eq]
    exact dpu_fu_write_base_other _ _ _ _ hne
  · intro enable
    rfl

theorem staticcontrol_updates_witness :
    dpu_fu_read (fetchunit_baddr_autoupdate imx_hdr fu_zero 5) 8 &&& 16711680 = 327680 ∧
      dpu_fu_read (fetchunit_shdldreq_sticky imx_hdr fu_zero 5) 8 &&& 4278190080
        = 83886080 :=
  ⟨((staticcontrol_updates imx_hdr fu_zero 5).1.1 (by decide) (by decide)).1,
    ((staticcontrol_updates imx_hdr fu_zero 5).2.1.1 (by decide) (by decide)).1⟩

/-! ## Null handles (C13) -/

/-- C13: on a null handle every checked helper warns and falls back at once:
`fetchunit_get_stream_id` returns DPU_PLANE_SRC_DISABLED, `fetchunit_is_pinned_off`
and the four type predicates return false, and `fetchunit_set_stream_id`,
`fetchunit_pin_off`, `fetchunit_unpin_off` and `fetchunit_get_dprc` return with the
handle still null, nothing written. -/
theorem null_handle_defaults (h : dpu_hdr) (id : Nat) (data : Option Nat) :
    fetchunit_get_stream_id h none = (h.DPU_PLANE_SRC_DISABLED, true) ∧
    fetchunit_is_pinned_off none = (false, true) ∧
    fetchunit_is_fetchdecode h none = (false, true) ∧
    fetchunit_is_fetcheco h none = (false, true) ∧
    fetchunit_is_fetchlayer h none = (false, true) ∧
    fetchunit_is_fetchwarp h none = (false, true) ∧
    fetchunit_set_stream_id h none id = (none, true) ∧
    fetchunit_pin_off none = (none, true) ∧
    fetchunit_unpin_off none = (none, true) ∧
    fetchunit_get_dprc none data = (none, true) := by
  refine ⟨rfl, rfl, rfl, rfl, rfl, rfl, ?_, rfl, rfl, rfl⟩
  simp only [fetchunit_set_stream_id]

/-! ## The pin-off flag (C18) -/

/-- C18: on every unit, `fetchunit_is_pinned_off` returns true after
`fetchunit_pin_off` and false after `fetchunit_unpin_off`, none of the three warns,
and the two setters change the `pin_off` field only: registers, `stream_id`, `type`,
`id`, `sub_id` and `dprc` are those of the unit before the call. -/
theorem pin_off_flag (fu : dpu_fetchunit) :
    fetchunit_is_pinned_off (fetchunit_pin_off (some fu)).1 = (true, false) ∧
    fetchunit_is_pinned_off (fetchunit_unpin_off (some fu)).1 = (false, false) ∧
    fetchunit_pin_off (some fu) = (some { fu with pin_off := true }, false) ∧
    fetchunit_unpin_off (some fu) = (some { fu with pin_off := false }, false) ∧
    (∀ fu', (fetchunit_pin_off (some fu)).1 = some fu' ∨
        (fetchunit_unpin_off (some fu)).1 = some fu' →
      fu'.base = fu.base ∧ fu'.stream_id = fu.stream_id ∧ fu'.type = fu.type ∧
        fu'.id = fu.id ∧ fu'.sub_id = fu.sub_id ∧ fu'.dprc = fu.dprc) := by
  refine ⟨rfl, rfl, rfl, rfl, ?_⟩
  intro fu' hfu
  rcases hfu with e | e
  · have e' : some { fu with pin_off := true } = some fu' := e
    injection e' with e'
    subst e'
    exact ⟨rfl, rfl, rfl, rfl, rfl, rfl⟩
  · have e' : some { fu with pin_off := false } = some fu' := e
    injection e' with e'
    subst e'
    exact ⟨rfl, rfl, rfl, rfl, rfl, rfl⟩

theorem pin_off_flag_witness :
    fetchunit_is_pinned_off (fetchunit_pin_off (some fu_zero)).1 = (true, false) ∧
      ({ fu_zero with pin_off := true } : dpu_fetchunit).stream_id = fu_zero.stream_id :=
  ⟨(pin_off_flag fu_zero).1,
    ((pin_off_flag fu_zero).2.2.2.2 { fu_zero with pin_off := true } (Or.inl rfl)).2.1⟩

/-! ## Register offsets (C16) -/

/-- C16: the offset of register `r` of sub-unit `n` is its offset in sub-unit 0
plus `n * 0x28`; the map from (register, sub-unit) to offset is injective; the four
bytes of every register of sub-unit `n` lie in `[0x10 + 0x28 * n, 0x10 + 0x28 * (n + 1))`
and every byte offset of that range belongs to one of its ten registers; the ranges
of two different sub-units have no offset in common. -/
theorem sub_unit_offsets (n : Nat) :
    (∀ r, fu_reg.offset r n = fu_reg.offset r 0 + n * 0x28) ∧
    (∀ r r' n', fu_reg.offset r n = fu_reg.offset r' n' → r = r' ∧ n = n') ∧
    (∀ r, 0x10 + 0x28 * n ≤ fu_reg.offset r n ∧
      fu_reg.offset r n + 4 ≤ 0x10 + 0x28 * (n + 1)) ∧
    (∀ o, 0x10 + 0x28 * n ≤ o → o < 0x10 + 0x28 * (n + 1) →
      ∃ r, fu_reg.offset r n ≤ o ∧ o < fu_reg.offset r n + 4) ∧
    (∀ n' o, n ≠ n' → 0x10 + 0x28 * n ≤ o → o < 0x10 + 0x28 * (n + 1) →
      ¬ (0x10 + 0x28 * n' ≤ o ∧ o < 0x10 + 0x28 * (n' + 1))) := by
  refine ⟨?_, ?_, ?_, ?_, ?_⟩
  · intro r
    cases r <;>
      simp only [fu_reg.offset, BASEADDRESS, SOURCEBUFFERATTRIBUTES, SOURCEBUFFERDIMENSION,
        COLORCOMPONENTBITS, COLORCOMPONENTSHIFT, LAYEROFFSET, CLIPWINDOWOFFSET,
        CLIPWINDOWDIMENSIONS, CONSTANTCOLOR, LAYERPROPERTY, Nat.zero_mul, Nat.add_zero]
  · intro r r' n' he
    cases r <;> cases r' <;>
      simp only [fu_reg.offset, BASEADDRESS, SOURCEBUFFERATTRIBUTES, SOURCEBUFFERDIMENSION,
        COLORCOMPONENTBITS, COLORCOMPONENTSHIFT, LAYEROFFSET, CLIPWINDOWOFFSET,
        CLIPWINDOWDIMENSIONS, CONSTANTCOLOR, LAYERPROPERTY] at he <;>
      first
        | exact ⟨rfl, by omega⟩
        | (exfalso; omega)
  · intro r
    cases r <;>
      simp only [fu_reg.offset, BASEADDRESS, SOURCEBUFFERATTRIBUTES, SOURCEBUFFERDIMENSION,
        COLORCOMPONENTBITS, COLORCOMPONENTSHIFT, LAYEROFFSET, CLIPWINDOWOFFSET,
        CLIPWINDOWDIMENSIONS, CONSTANTCOLOR, LAYERPROPERTY] <;> omega
  · intro o hlo hhi
    have hcase : o < 0x14 + n * 0x28 ∨ (0x14 + n * 0x28 ≤ o ∧ o < 0x18 + n * 0x28) ∨
        (0x18 + n * 0x28 ≤ o ∧ o < 0x1C + n * 0x28) ∨
        (0x1C + n * 0x28 ≤ o ∧ o < 0x20 + n * 0x28) ∨
        (0x20 + n * 0x28 ≤ o ∧ o < 0x24 + n * 0x28) ∨
        (0x24 + n * 0x28 ≤ o ∧ o < 0x28 + n * 0x28) ∨
        (0x28 + n * 0x28 ≤ o ∧ o < 0x2C + n * 0x28) ∨
        (0x2C + n * 0x28 ≤ o ∧ o < 0x30 + n * 0x28) ∨
        (0x30 + n * 0x28 ≤ o ∧ o < 0x34 + n * 0x28) ∨ 0x34 + n * 0x28 ≤ o := by omega
    rcases hcase with c | c | c | c | c | c | c | c | c | c
    · exact ⟨.baseaddress, by simp only [fu_reg.offset, BASEADDRESS]; omega,
        by simp only [fu_reg.offset, BASEADDRESS]; omega⟩
    · exact ⟨.sourcebufferattributes, by simp only [fu_reg.offset, SOURCEBUFFERATTRIBUTES]; omega,
        by simp only [fu_reg.offset, SOURCEBUFFERATTRIBUTES]; omega⟩
    · exact ⟨.sourcebufferdimension, by simp only [fu_reg.offset, SOURCEBUFFERDIMENSION]; omega,
        by simp only [fu_reg.offset, SOURCEBUFFERDIMENSION]; omega⟩
    · exact ⟨.colorcomponentbits, by simp only [fu_reg.offset, COLORCOMPONENTBITS]; omega,
        by simp only [fu_reg.offset, COLORCOMPONENTBITS]; omega⟩
    · exact ⟨.colorcomponentshift, by simp only [fu_reg.offset, COLORCOMPONENTSHIFT]; omega,
        by simp only [fu_reg.offset, COLORCOMPONENTSHIFT]; omega⟩
    · exact ⟨.layeroffset, by simp only [fu_reg.offset, LAYEROFFSET]; omega,
        by simp only [fu_reg.offset, LAYEROFFSET]; omega⟩
    · exact ⟨.clipwindowoffset, by simp only [fu_reg.offset, CLIPWINDOWOFFSET]; omega,
        by simp only [fu_reg.offset, CLIPWINDOWOFFSET]; omega⟩
    · exact ⟨.clipwindowdimensions, by simp only [fu_reg.offset, CLIPWINDOWDIMENSIONS]; omega,
        by simp only [fu_reg.offset, CLIPWINDOWDIMENSIONS]; omega⟩
    · exact ⟨.constantcolor, by simp only [fu_reg.offset, CONSTANTCOLOR]; omega,
        by simp only [fu_reg.offset, CONSTANTCOLOR]; omega⟩
    · exact ⟨.layerproperty, by simp only [fu_reg.offset, LAYERPROPERTY]; omega,
        by simp only [fu_reg.offset, LAYERPROPERTY]; omega⟩
  · intro n' o hne hlo hhi hc
    omega

theorem sub_unit_offsets_witness :
    ∃ r, fu_reg.offset r 1 ≤ 70 ∧ 70 < fu_reg.offset r 1 + 4 :=
  (sub_unit_offsets 1).2.2.2.1 70 (by decide) (by decide)

/-! ## Definedness of the geometry (C19) and the stride argument (C20) -/

/-- Under prefetch the stride computation is defined when the low 32 bits of the
corrected address are not all zero, and stops at the shift otherwise. -/
theorem src_stride_of_defined (c : dma_addr_width) (width x_offset mt_w : Nat) (bpp : Int)
    (stride baddr : Nat) :
    (corrected_baddr c x_offset mt_w bpp baddr % 4294967296 ≠ 0 →
      ∃ S, src_stride_of c width x_offset mt_w bpp stride baddr true = .ok S) ∧
    (corrected_baddr c x_offset mt_w bpp baddr % 4294967296 = 0 →
      src_stride_of c width x_offset mt_w bpp stride baddr true
        = .error .shift_by_negative) := by
  constructor
  · intro hlow
    obtain ⟨k, -, -, -, hb⟩ := burst_size_of_eq _ hlow
    rw [src_stride_of_prefetch, hb]
    by_cases hw : mt_w = 0
    · simp only [ne_eq, hw, not_true_eq_false, if_false]
      exact ⟨_, rfl⟩
    · simp only [ne_eq, hw, not_false_eq_true, if_true]
      exact ⟨_, rfl⟩
  · intro hz
    rw [src_stride_of_prefetch, burst_size_of_low32_zero _ hz]

theorem burst_length_of_defined (c : dma_addr_width) (x_offset mt_w : Nat) (bpp : Int)
    (baddr : Nat) :
    (corrected_baddr c x_offset mt_w bpp baddr % 4294967296 ≠ 0 →
      ∃ l, burst_length_of c x_offset mt_w bpp baddr true = .ok l) ∧
    (corrected_baddr c x_offset mt_w bpp baddr % 4294967296 = 0 →
      burst_length_of c x_offset mt_w bpp baddr true = .error .shift_by_negative) := by
  constructor
  · intro hlow
    obtain ⟨k, -, -, -, hb⟩ := burst_size_of_eq _ hlow
    rw [burst_length_of_prefetch, hb]
    exact ⟨_, rfl⟩
  · intro hz
    rw [burst_length_of_prefetch, burst_size_of_low32_zero _ hz]

theorem baseaddress_of_defined (c : dma_addr_width) (width x_offset y_offset mt_w mt_h : Nat)
    (bpp : Int) (baddr : Nat) (hw : mt_w ≠ 0) :
    (corrected_baddr c x_offset mt_w bpp baddr % 4294967296 ≠ 0 → mt_h ≠ 0 →
      ∃ a, baseaddress_of c width x_offset y_offset mt_w mt_h bpp baddr = .ok a) ∧
    (corrected_baddr c x_offset mt_w bpp baddr % 4294967296 = 0 →
      baseaddress_of c width x_offset y_offset mt_w mt_h bpp baddr
        = .error .shift_by_negative) ∧
    (corrected_baddr c x_offset mt_w bpp baddr % 4294967296 ≠ 0 → mt_h = 0 →
      baseaddress_of c width x_offset y_offset mt_w mt_h bpp baddr
        = .error .modulo_by_zero) := by
  refine ⟨?_, ?_, ?_⟩
  · intro hlow hh
    obtain ⟨k, -, -, -, hb⟩ := burst_size_of_eq _ hlow
    rw [baseaddress_of_tiled _ _ _ _ _ _ _ _ hw, hb]
    simp only [hh, if_false]
    exact ⟨_, rfl⟩
  · intro hz
    rw [baseaddress_of_tiled _ _ _ _ _ _ _ _ hw, burst_size_of_low32_zero _ hz]
  · intro hlow hh
    obtain ⟨k, -, -, -, hb⟩ := burst_size_of_eq _ hlow
    rw [baseaddress_of_tiled _ _ _ _ _ _ _ _ hw, hb]
    simp only [hh, if_true]

/-- C19: the three geometry helpers return normally exactly under their implicit
preconditions. With `mt_w ≠ 0`, `fetchunit_set_baseaddress` returns if and only if
`mt_h ≠ 0` and the low 32 bits of the corrected address `A` are not all zero; it
stops at the shift by `-1` when those bits are zero and at the modulo by zero when
they are not but `mt_h = 0`. With `use_prefetch = true`, `fetchunit_set_burstlength`
and `fetchunit_set_src_stride` return if and only if the low 32 bits of `A` are not
all zero, and stop at the shift by `-1` otherwise. -/
theorem geometry_defined_iff (h : dpu_hdr) (c : dma_addr_width) (fu : dpu_fetchunit)
    (width x_offset y_offset mt_w mt_h : Nat) (bpp : Int) (stride baddr : Nat) :
    (mt_w ≠ 0 →
      ((∃ fu', fetchunit_set_baseaddress c fu width x_offset y_offset mt_w mt_h bpp baddr
            = .ok fu') ↔
          (mt_h ≠ 0 ∧ corrected_baddr c x_offset mt_w bpp baddr % 4294967296 ≠ 0)) ∧
      (corrected_baddr c x_offset mt_w bpp baddr % 4294967296 = 0 →
        fetchunit_set_baseaddress c fu width x_offset y_offset mt_w mt_h bpp baddr
          = .error .shift_by_negative) ∧
      (corrected_baddr c x_offset mt_w bpp baddr % 4294967296 ≠ 0 → mt_h = 0 →
        fetchunit_set_baseaddress c fu width x_offset y_offset mt_w mt_h bpp baddr
          = .error .modulo_by_zero)) ∧
    (((∃ fu', fetchunit_set_burstlength h c fu x_offset mt_w bpp baddr true = .ok fu') ↔
        corrected_baddr c x_offset mt_w bpp baddr % 4294967296 ≠ 0) ∧
      (corrected_baddr c x_offset mt_w bpp baddr % 4294967296 = 0 →
        fetchunit_set_burstlength h c fu x_offset mt_w bpp baddr true
          = .error .shift_by_negative)) ∧
    (((∃ fu', fetchunit_set_src_stride h c fu width x_offset mt_w bpp stride baddr true
          = .ok fu') ↔
        corrected_baddr c x_offset mt_w bpp baddr % 4294967296 ≠ 0) ∧
      (corrected_baddr c x_offset mt_w bpp baddr % 4294967296 = 0 →
        fetchunit_set_src_stride h c fu width x_offset mt_w bpp stride baddr true
          = .error .shift_by_negative)) := by
  refine ⟨?_, ⟨?_, ?_⟩, ⟨?_, ?_⟩⟩
  · intro hw
    obtain ⟨d1, d2, d3⟩ :=
      baseaddress_of_defined c width x_offset y_offset mt_w mt_h bpp baddr hw
    have e2 : corrected_baddr c x_offset mt_w bpp baddr % 4294967296 = 0 →
        fetchunit_set_baseaddress c fu width x_offset y_offset mt_w mt_h bpp baddr
          = .error .shift_by_negative := by
      intro hz
      unfold fetchunit_set_baseaddress
      rw [d2 hz]
    have e3 : corrected_baddr c x_offset mt_w bpp baddr % 4294967296 ≠ 0 → mt_h = 0 →
        fetchunit_set_baseaddress c fu width x_offset y_offset mt_w mt_h bpp baddr
          = .error .modulo_by_zero := by
      intro hlow hh
      unfold fetchunit_set_baseaddress
      rw [d3 hlow hh]
    refine ⟨⟨?_, ?_⟩, e2, e3⟩
    · rintro ⟨fu', hfu⟩
      by_cases hz : corrected_baddr c x_offset mt_w bpp baddr % 4294967296 = 0
      · rw [e2 hz] at hfu
        cases hfu
      · by_cases hh : mt_h = 0
        · rw [e3 hz hh] at hfu
          cases hfu
        · exact ⟨hh, hz⟩
    · rintro ⟨hh, hlow⟩
      obtain ⟨a, ha⟩ := d1 hlow hh
      unfold fetchunit_set_baseaddress
      rw [ha]
      exact ⟨_, rfl⟩
  · obtain ⟨d1, d2⟩ := burst_length_of_defined c x_offset mt_w bpp baddr
    constructor
    · rintro ⟨fu', hfu⟩
      intro hz
      unfold fetchunit_set_burstlength at hfu
      rw [d2 hz] at hfu
      cases hfu
    · intro hlow
      obtain ⟨l, hl⟩ := d1 hlow
      unfold fetchunit_set_burstlength
      rw [hl]
      exact ⟨_, rfl⟩
  · intro hz
    unfold fetchunit_set_burstlength
    rw [(burst_length_of_defined c x_offset mt_w bpp baddr).2 hz]
  · obtain ⟨d1, d2⟩ := src_stride_of_defined c width x_offset mt_w bpp stride baddr
    constructor
    · rintro ⟨fu', hfu⟩
      intro hz
      unfold fetchunit_set_src_stride at hfu
      rw [d2 hz] at hfu
      cases hfu
    · intro hlow
      obtain ⟨S, hS⟩ := d1 hlow
      unfold fetchunit_set_src_stride
      rw [hS]
      exact ⟨_, rfl⟩
  · intro hz
    unfold fetchunit_set_src_stride
    rw [(src_stride_of_defined c width x_offset mt_w bpp stride baddr).2 hz]

theorem geometry_defined_iff_witness :
    (∃ fu', fetchunit_set_baseaddress .u64 fu_zero 64 20 20 16 16 32 4096 = .ok fu') ∧
      fetchunit_set_baseaddress .u64 fu_zero 64 20 20 16 0 32 4096 = .error .modulo_by_zero ∧
      fetchunit_set_baseaddress .u64 fu_zero 64 0 20 16 16 32 4294967296
        = .error .shift_by_negative :=
  ⟨((geometry_defined_iff imx_hdr .u64 fu_zero 64 20 20 16 16 32 0 4096).1 (by decide)).1.2
      ⟨by decide, by decide⟩,
    ((geometry_defined_iff imx_hdr .u64 fu_zero 64 20 20 16 0 32 0 4096).1 (by decide)).2.2
      (by decide) rfl,
    ((geometry_defined_iff imx_hdr .u64 fu_zero 64 0 20 16 16 32 0 4294967296).1
      (by decide)).2.1 (by decide)⟩

/-- C20: with `use_prefetch = true` the outcome of `fetchunit_set_src_stride` is the
same for any two values of its `stride` argument, for every input; when the low 32
bits of the corrected address are not all zero both calls return normally with the
same unit, hence with the same value in SOURCEBUFFERATTRIBUTES(sub_id). -/
theorem src_stride_arg_unused (h : dpu_hdr) (c : dma_addr_width) (fu : dpu_fetchunit)
    (width x_offset mt_w : Nat) (bpp : Int) (stride stride' baddr : Nat) :
    src_stride_of c width x_offset mt_w bpp stride baddr true
      = src_stride_of c width x_offset mt_w bpp stride' baddr true ∧
    fetchunit_set_src_stride h c fu width x_offset mt_w bpp stride baddr true
      = fetchunit_set_src_stride h c fu width x_offset mt_w bpp stride' baddr true ∧
    (corrected_baddr c x_offset mt_w bpp baddr % 4294967296 ≠ 0 →
      ∃ fu', fetchunit_set_src_stride h c fu width x_offset mt_w bpp stride baddr true
          = .ok fu' ∧
        fetchunit_set_src_stride h c fu width x_offset mt_w bpp stride' baddr true
          = .ok fu') := by
  have e : src_stride_of c width x_offset mt_w bpp stride baddr true
      = src_stride_of c width x_offset mt_w bpp stride' baddr true := by
    rw [src_stride_of_prefetch, src_stride_of_prefetch]
  have e' : fetchunit_set_src_stride h c fu width x_offset mt_w bpp stride baddr true
      = fetchunit_set_src_stride h c fu width x_offset mt_w bpp stride' baddr true := by
    unfold fetchunit_set_src_stride
    rw [e]
  refine ⟨e, e', ?_⟩
  intro hlow
  obtain ⟨S, hS⟩ := (src_stride_of_defined c width x_offset mt_w bpp stride baddr).1 hlow
  have hfu : fetchunit_set_src_stride h c fu width x_offset mt_w bpp stride baddr true
      = .ok (dpu_fu_write fu
          ((and_not32 (dpu_fu_read fu (SOURCEBUFFERATTRIBUTES fu.sub_id)) 0xffff
            ||| h.STRIDE S) % 4294967296) (SOURCEBUFFERATTRIBUTES fu.sub_id)) := by
    unfold fetchunit_set_src_stride
    rw [hS]
  exact ⟨_, hfu, e' ▸ hfu⟩

theorem src_stride_arg_unused_witness :
    fetchunit_set_src_stride imx_hdr .u64 fu_zero 64 20 16 32 7 4096 true
      = fetchunit_set_src_stride imx_hdr .u64 fu_zero 64 20 16 32 4096 4096 true ∧
    ∃ fu', fetchunit_set_src_stride imx_hdr .u64 fu_zero 64 20 16 32 7 4096 true = .ok fu' := by
  obtain ⟨-, e, hr⟩ := src_stride_arg_unused imx_hdr .u64 fu_zero 64 20 16 32 7 4096 4096
  obtain ⟨fu', h1, -⟩ := hr (by decide)
  exact ⟨e, fu', h1⟩

/-! ## The stride of the base address and the programmed stride (C15) -/

theorem baseaddress_of_stride (c : dma_addr_width) (width x_offset y_offset mt_w mt_h : Nat)
    (bpp : Int) (baddr : Nat) (hw : mt_w ≠ 0) :
    baseaddress_of c width x_offset y_offset mt_w mt_h bpp baddr =
      match baseaddress_stride_of c width x_offset mt_w bpp baddr with
      | .error e => .error e
      | .ok stride =>
        if mt_h = 0 then .error .modulo_by_zero
        else .ok ((baddr_add_x_offset c x_offset mt_w bpp baddr
          + ((y_offset % mt_h) * stride) % 4294967296) % 2 ^ c.bits) := by
  unfold baseaddress_of baseaddress_stride_of
  simp only [ne_eq, hw, not_false_eq_true, decide_True, if_true]
  cases burst_size_of (baddr_add_x_offset c x_offset mt_w bpp baddr) <;> rfl

theorem mod_dma_mod_u32 (c : dma_addr_width) (x : Nat) :
    x % 2 ^ c.bits % 4294967296 = x % 4294967296 := by
  have hd : 4294967296 ∣ 2 ^ c.bits := by
    have : (4294967296 : Nat) = 2 ^ 32 := by norm_num
    rw [this]
    exact Nat.pow_dvd_pow 2 (dma_addr_width_bits_ge c)
  exact Nat.mod_mod_of_dvd x hd

/-- C15 (amended): for `mt_w ≠ 0`, `mt_h ≠ 0` and a corrected address `A` whose low
32 bits are not all zero, the stride that `fetchunit_set_baseaddress` multiplies
the y offset by is the stride `S` that `fetchunit_set_src_stride` computes for the
same `width`, `x_offset`, `mt_w`, `bpp` and `baddr` with `use_prefetch = true` (for
any `stride` argument), both calls return normally, and BASEADDRESS(sub_id) then
holds `A + (y_offset % mt_h) * S` modulo `2 ^ 32`, which is that sum itself when it
is below `2 ^ 32`: first the x correction, then the stride, then the y
correction. -/
theorem baseaddress_stride_refines (h : dpu_hdr) (c : dma_addr_width) (fu : dpu_fetchunit)
    (width x_offset y_offset mt_w mt_h : Nat) (bpp : Int) (stride baddr : Nat)
    (hw : mt_w ≠ 0) (hh : mt_h ≠ 0)
    (hlow : corrected_baddr c x_offset mt_w bpp baddr % 4294967296 ≠ 0) :
    baseaddress_stride_of c width x_offset mt_w bpp baddr
      = src_stride_of c width x_offset mt_w bpp stride baddr true ∧
    ∃ S, src_stride_of c width x_offset mt_w bpp stride baddr true = .ok S ∧
      (∃ fus, fetchunit_set_src_stride h c fu width x_offset mt_w bpp stride baddr true
        = .ok fus) ∧
      baseaddress_of c width x_offset y_offset mt_w mt_h bpp baddr
        = .ok ((corrected_baddr c x_offset mt_w bpp baddr
            + ((y_offset % mt_h) * S) % 4294967296) % 2 ^ c.bits) ∧
      ∃ fu', fetchunit_set_baseaddress c fu width x_offset y_offset mt_w mt_h bpp baddr
          = .ok fu' ∧
        dpu_fu_read fu' (BASEADDRESS fu.sub_id)
          = (corrected_baddr c x_offset mt_w bpp baddr + (y_offset % mt_h) * S)
              % 4294967296 ∧
        (corrected_baddr c x_offset mt_w bpp baddr + (y_offset % mt_h) * S < 4294967296 →
          dpu_fu_read fu' (BASEADDRESS fu.sub_id)
            = corrected_baddr c x_offset mt_w bpp baddr + (y_offset % mt_h) * S) := by
  have hA : corrected_baddr c x_offset mt_w bpp baddr
      = baddr_add_x_offset c x_offset mt_w bpp baddr := by
    unfold corrected_baddr
    simp only [ne_eq, hw, not_false_eq_true, if_true]
  have e : baseaddress_stride_of c width x_offset mt_w bpp baddr
      = src_stride_of c width x_offset mt_w bpp stride baddr true := by
    rw [src_stride_of_prefetch, hA]
    unfold baseaddress_stride_of
    simp only [ne_eq, hw, not_false_eq_true, if_true]
  obtain ⟨S, hS⟩ := (src_stride_of_defined c width x_offset mt_w bpp stride baddr).1 hlow
  have hb : baseaddress_of c width x_offset y_offset mt_w mt_h bpp baddr
      = .ok ((corrected_baddr c x_offset mt_w bpp baddr
          + ((y_offset % mt_h) * S) % 4294967296) % 2 ^ c.bits) := by
    rw [baseaddress_of_stride _ _ _ _ _ _ _ _ hw, e, hS, hA]
    simp only [hh, if_false]
  have hrd : dpu_fu_read (dpu_fu_write fu ((corrected_baddr c x_offset mt_w bpp baddr
        + ((y_offset % mt_h) * S) % 4294967296) % 2 ^ c.bits) (BASEADDRESS fu.sub_id))
        (BASEADDRESS fu.sub_id)
      = (corrected_baddr c x_offset mt_w bpp baddr + (y_offset % mt_h) * S)
          % 4294967296 := by
    rw [dpu_fu_read_write_same, mod_dma_mod_u32, Nat.add_mod_mod]
  refine ⟨e, S, hS, ?_, hb, _, ?_, hrd, ?_⟩
  · unfold fetchunit_set_src_stride
    rw [hS]
    exact ⟨_, rfl⟩
  · unfold fetchunit_set_baseaddress
    rw [hb]
  · intro hlt
    rw [hrd, Nat.mod_eq_of_lt hlt]

theorem baseaddress_stride_refines_witness :
    baseaddress_stride_of .u64 64 20 16 32 4096 = src_stride_of .u64 64 20 16 32 0 4096 true ∧
      src_stride_of .u64 64 20 16 32 0 4096 true = .ok 256 ∧
      ∃ fu', fetchunit_set_baseaddress .u64 fu_zero 64 20 20 16 16 32 4096 = .ok fu' ∧
        dpu_fu_read fu' (BASEADDRESS fu_zero.sub_id) = (4112 + 20 % 16 * 256) % 4294967296 := by
  obtain ⟨e, S, hS, -, -, fu', hfu, hrd, -⟩ :=
    baseaddress_stride_refines imx_hdr .u64 fu_zero 64 20 20 16 16 32 0 4096
      (by decide) (by decide) (by decide)
  have hS' : src_stride_of .u64 64 20 16 32 0 4096 true = .ok 256 := rfl
  rw [hS'] at hS
  injection hS with hS
  subst hS
  have hA : corrected_baddr .u64 20 16 32 4096 = 4112 := by decide
  rw [hA] at hrd
  exact ⟨e, hS', fu', hfu, hrd⟩

/-- Two inputs with `mt_w ≠ 0`, `mt_h ≠ 0` and a nonzero corrected address. For the
64-bit address `2 ^ 32` neither helper computes a stride and nothing is written.
For `baddr = 0xFFFFFF00`, `width = 64`, `bpp = 32`, `y_offset = 1` the stride is 256
in both helpers and the x-corrected address plus `1 * 256` is `2 ^ 32`, but the
register holds 0. -/
theorem baseaddress_stride_refines_counterexample :
    (corrected_baddr .u64 0 16 32 4294967296 = 4294967296 ∧ (4294967296 : Nat) ≠ 0 ∧
      src_stride_of .u64 64 0 16 32 0 4294967296 true = .error .shift_by_negative ∧
      baseaddress_stride_of .u64 64 0 16 32 4294967296 = .error .shift_by_negative ∧
      fetchunit_set_baseaddress .u64 fu_zero 64 0 1 16 16 32 4294967296
        = .error .shift_by_negative) ∧
    (corrected_baddr .u32 0 16 32 4294967040 = 4294967040 ∧
      src_stride_of .u32 64 0 16 32 0 4294967040 true = .ok 256 ∧
      baseaddress_stride_of .u32 64 0 16 32 4294967040 = .ok 256 ∧
      4294967040 + (1 % 16) * 256 = 4294967296 ∧
      ∃ fu', fetchunit_set_baseaddress .u32 fu_zero 64 0 1 16 16 32 4294967040 = .ok fu' ∧
        dpu_fu_read fu' (BASEADDRESS 0) = 0) := by
  refine ⟨⟨by decide, by decide, rfl, rfl, ?_⟩, ⟨by decide, rfl, rfl, by decide, ?_⟩⟩
  · have e : baseaddress_of .u64 64 0 1 16 16 32 4294967296 = .error .shift_by_negative := rfl
    unfold fetchunit_set_baseaddress
    rw [e]
  · have e : baseaddress_of .u32 64 0 1 16 16 32 4294967040 = .ok 0 := rfl
    refine ⟨dpu_fu_write fu_zero 0 (BASEADDRESS fu_zero.sub_id), ?_, ?_⟩
    · unfold fetchunit_set_baseaddress
      rw [e]
    · simp [dpu_fu_read, dpu_fu_write, fu_zero]

/-! ## The two fields of SOURCEBUFFERATTRIBUTES (C17) -/

/-- Two read-modify-write updates of fields with disjoint masks give the same
register value in either order. -/
theorem rmw_commute (v s1 m1 s2 m2 : Nat) (h1 : s1 &&& m1 = s1) (h2 : s2 &&& m2 = s2)
    (hd : m1 &&& m2 = 0) :
    (and_not32 ((and_not32 v m1 ||| s1) % 4294967296) m2 ||| s2) % 4294967296
      = (and_not32 ((and_not32 v m2 ||| s2) % 4294967296) m1 ||| s1) % 4294967296 := by
  apply Nat.eq_of_testBit_eq
  intro i
  have e1 : s1.testBit i = (s1.testBit i && m1.testBit i) := by
    conv_lhs => rw [← h1]
    rw [Nat.testBit_and]
  have e2 : s2.testBit i = (s2.testBit i && m2.testBit i) := by
    conv_lhs => rw [← h2]
    rw [Nat.testBit_and]
  have ed : (m1.testBit i && m2.testBit i) = false := by
    rw [← Nat.testBit_and, hd, Nat.zero_testBit]
  simp only [testBit_mod_u32, Nat.testBit_or, testBit_and_not32]
  generalize s1.testBit i = a1 at e1 ⊢
  generalize s2.testBit i = a2 at e2 ⊢
  generalize m1.testBit i = b1 at e1 ed ⊢
  generalize m2.testBit i = b2 at e2 ed ⊢
  generalize v.testBit i = x
  generalize decide (i < 32) = d
  clear h1 h2 hd
  revert e1 e2 ed
  cases a1 <;> cases a2 <;> cases b1 <;> cases b2 <;> cases x <;> cases d <;> decide

/-- A read-modify-write update of one field keeps the bits under a disjoint mask. -/
theorem rmw_other_field (v s m m' : Nat) (hs : s &&& m = s) (hd : m &&& m' = 0) :
    ((and_not32 (v % 4294967296) m ||| s) % 4294967296) &&& m' = (v % 4294967296) &&& m' := by
  apply Nat.eq_of_testBit_eq
  intro i
  have e1 : s.testBit i = (s.testBit i && m.testBit i) := by
    conv_lhs => rw [← hs]
    rw [Nat.testBit_and]
  have ed : (m.testBit i && m'.testBit i) = false := by
    rw [← Nat.testBit_and, hd, Nat.zero_testBit]
  simp only [Nat.testBit_and, testBit_mod_u32, Nat.testBit_or, testBit_and_not32]
  generalize s.testBit i = a at e1 ⊢
  generalize m.testBit i = b at e1 ed ⊢
  generalize m'.testBit i = b' at ed ⊢
  generalize v.testBit i = x
  generalize decide (i < 32) = d
  clear hs hd
  revert e1 ed
  cases a <;> cases b <;> cases b' <;> cases x <;> cases d <;> decide

theorem fetchunit_set_src_bpp_eq (h : dpu_hdr) (fu : dpu_fetchunit) (bpp : Int) :
    fetchunit_set_src_bpp h fu bpp = dpu_fu_write fu
      ((and_not32 (dpu_fu_read fu (SOURCEBUFFERATTRIBUTES fu.sub_id)) 0x3f0000
        ||| h.BITSPERPIXEL bpp) % 4294967296) (SOURCEBUFFERATTRIBUTES fu.sub_id) := rfl

theorem fetchunit_set_src_stride_of_ok (h : dpu_hdr) (c : dma_addr_width) (fu : dpu_fetchunit)
    (width x_offset mt_w : Nat) (bpp : Int) (stride baddr : Nat) (use_prefetch : Bool)
    (S : Nat) (hS : src_stride_of c width x_offset mt_w bpp stride baddr use_prefetch = .ok S) :
    fetchunit_set_src_stride h c fu width x_offset mt_w bpp stride baddr use_prefetch
      = .ok (dpu_fu_write fu
          ((and_not32 (dpu_fu_read fu (SOURCEBUFFERATTRIBUTES fu.sub_id)) 0xffff
            ||| h.STRIDE S) % 4294967296) (SOURCEBUFFERATTRIBUTES fu.sub_id)) := by
  unfold fetchunit_set_src_stride
  rw [hS]

theorem src_stride_of_defined_of (c : dma_addr_width) (width x_offset mt_w : Nat) (bpp : Int)
    (stride baddr : Nat) (use_prefetch : Bool)
    (hdef : use_prefetch = false ∨
      corrected_baddr c x_offset mt_w bpp baddr % 4294967296 ≠ 0) :
    ∃ S, src_stride_of c width x_offset mt_w bpp stride baddr use_prefetch = .ok S := by
  cases use_prefetch
  · exact ⟨stride, rfl⟩
  · rcases hdef with hf | hlow
    · cases hf
    · exact (src_stride_of_defined c width x_offset mt_w bpp stride baddr).1 hlow

/-- C17: when BITSPERPIXEL(bpp) lies inside the mask `0x3f0000` and STRIDE(s) inside
the mask `0xffff`, from every state `fetchunit_set_src_bpp` leaves BITSPERPIXEL(bpp)
under `0x3f0000` and keeps every other bit of SOURCEBUFFERATTRIBUTES(sub_id), the
stride field among them; `fetchunit_set_src_stride` (without prefetch, or with a
corrected address whose low 32 bits are not all zero) returns normally, leaves
STRIDE(S) under `0xffff` and keeps every other bit, the bits-per-pixel field among
them; neither changes another register or field of the unit; and the two calls
reach the same state in either order. -/
theorem src_attr_fields (h : dpu_hdr) (c : dma_addr_width) (fu : dpu_fetchunit)
    (bpp_field : Int) (width x_offset mt_w : Nat) (bpp : Int) (stride baddr : Nat)
    (use_prefetch : Bool)
    (hb : h.BITSPERPIXEL bpp_field &&& 0x3f0000 = h.BITSPERPIXEL bpp_field)
    (hs : ∀ s, h.STRIDE s &&& 0xffff = h.STRIDE s)
    (hdef : use_prefetch = false ∨
      corrected_baddr c x_offset mt_w bpp baddr % 4294967296 ≠ 0) :
    (dpu_fu_read (fetchunit_set_src_bpp h fu bpp_field) (SOURCEBUFFERATTRIBUTES fu.sub_id)
          &&& 0x3f0000 = h.BITSPERPIXEL bpp_field ∧
      and_not32 (dpu_fu_read (fetchunit_set_src_bpp h fu bpp_field)
          (SOURCEBUFFERATTRIBUTES fu.sub_id)) 0x3f0000
        = and_not32 (dpu_fu_read fu (SOURCEBUFFERATTRIBUTES fu.sub_id)) 0x3f0000 ∧
      dpu_fu_read (fetchunit_set_src_bpp h fu bpp_field) (SOURCEBUFFERATTRIBUTES fu.sub_id)
          &&& 0xffff = dpu_fu_read fu (SOURCEBUFFERATTRIBUTES fu.sub_id) &&& 0xffff ∧
      (∀ offset, offset ≠ SOURCEBUFFERATTRIBUTES fu.sub_id →
        (fetchunit_set_src_bpp h fu bpp_field).base offset = fu.base offset) ∧
      { fetchunit_set_src_bpp h fu bpp_field with base := fu.base } = fu) ∧
    (∃ S fu', src_stride_of c width x_offset mt_w bpp stride baddr use_prefetch = .ok S ∧
      fetchunit_set_src_stride h c fu width x_offset mt_w bpp stride baddr use_prefetch
        = .ok fu' ∧
      dpu_fu_read fu' (SOURCEBUFFERATTRIBUTES fu.sub_id) &&& 0xffff = h.STRIDE S ∧
      and_not32 (dpu_fu_read fu' (SOURCEBUFFERATTRIBUTES fu.sub_id)) 0xffff
        = and_not32 (dpu_fu_read fu (SOURCEBUFFERATTRIBUTES fu.sub_id)) 0xffff ∧
      dpu_fu_read fu' (SOURCEBUFFERATTRIBUTES fu.sub_id) &&& 0x3f0000
        = dpu_fu_read fu (SOURCEBUFFERATTRIBUTES fu.sub_id) &&& 0x3f0000 ∧
      (∀ offset, offset ≠ SOURCEBUFFERATTRIBUTES fu.sub_id →
        fu'.base offset = fu.base offset) ∧
      { fu' with base := fu.base } = fu ∧
      fetchunit_set_src_stride h c (fetchunit_set_src_bpp h fu bpp_field)
          width x_offset mt_w bpp stride baddr use_prefetch
        = .ok (fetchunit_set_src_bpp h fu' bpp_field)) := by
  have hrd : dpu_fu_read fu (SOURCEBUFFERATTRIBUTES fu.sub_id)
      = fu.base (SOURCEBUFFERATTRIBUTES fu.sub_id) % 4294967296 := rfl
  constructor
  · rw [fetchunit_set_src_bpp_eq, dpu_fu_read_write_same, Nat.mod_mod]
    refine ⟨rmw_field _ _ _ (by norm_num) hb, rmw_frame _ _ _ hb, ?_, ?_, rfl⟩
    · rw [hrd]
      exact rmw_other_field _ _ _ _ hb (by decide)
    · intro offset hne
      exact dpu_fu_write_base_other _ _ _ _ hne
  · obtain ⟨S, hS⟩ :=
      src_stride_of_defined_of c width x_offset mt_w bpp stride baddr use_prefetch hdef
    refine ⟨S, _, hS, fetchunit_set_src_stride_of_ok h c fu _ _ _ _ _ _ _ S hS, ?_⟩
    rw [dpu_fu_read_write_same, Nat.mod_mod]
    refine ⟨rmw_field _ _ _ (by norm_num) (hs S), rmw_frame _ _ _ (hs S), ?_, ?_, rfl, ?_⟩
    · rw [hrd]
      exact rmw_other_field _ _ _ _ (hs S) (by decide)
    · intro offset hne
      exact dpu_fu_write_base_other _ _ _ _ hne
    · rw [fetchunit_set_src_stride_of_ok h c (fetchunit_set_src_bpp h fu bpp_field)
        _ _ _ _ _ _ _ S hS]
      congr 1
      rw [fetchunit_set_src_bpp_eq h fu, fetchunit_set_src_bpp_eq h (dpu_fu_write _ _ _),
        dpu_fu_write_sub_id, dpu_fu_write_sub_id, dpu_fu_read_write_same,
        dpu_fu_read_write_same, dpu_fu_write_write, dpu_fu_write_write]
      apply dpu_fu_write_congr
      simp only [Nat.mod_mod]
      exact rmw_commute _ _ _ _ _ hb (hs S) (by decide)

theorem src_attr_fields_witness :
    ∃ S fu', src_stride_of .u64 64 20 16 32 0 4096 true = .ok S ∧
      fetchunit_set_src_stride imx_hdr .u64 fu_zero 64 20 16 32 0 4096 true = .ok fu' ∧
      fetchunit_set_src_stride imx_hdr .u64 (fetchunit_set_src_bpp imx_hdr fu_zero 32)
          64 20 16 32 0 4096 true
        = .ok (fetchunit_set_src_bpp imx_hdr fu' 32) := by
  have hs : ∀ s, imx_hdr.STRIDE s &&& 0xffff = imx_hdr.STRIDE s := by
    intro s
    show ((s + 4294967295) % 4294967296 &&& 0xFFFF) &&& 0xffff
      = (s + 4294967295) % 4294967296 &&& 0xFFFF
    rw [Nat.and_assoc, Nat.and_self]
  obtain ⟨-, S, fu', h1, h2, -, -, -, -, -, h8⟩ :=
    src_attr_fields imx_hdr .u64 fu_zero 32 64 20 16 32 0 4096 true (by decide) hs
      (Or.inr (by decide))
  exact ⟨S, fu', h1, h2, h8⟩

end DpuFetchunit
